import Mathlib

/-!
# Verification of the netplay signaling server and lockstep clients

Shallow embedding of the signaling server (`server.ts`: user directory,
room registry, invite registry and the message handlers) and of the two
client-side lockstep loops (the NES loop in `App.tsx` and the SNES
`applyStates` loop in `SnesGameView`).  Everything is translated directly
from the TypeScript source; JavaScript `Map`s become association lists,
in-place object mutation becomes functional record update, and each
request handler becomes a pure function from server state and request
arguments to an `Except`-style response together with the new state.
Event broadcasting and socket bookkeeping have no effect on registry
state and are not modelled.
-/

namespace Netplay

/-- `String.prototype.trim()`: strip leading and trailing whitespace.
Implemented by structural recursion on the character list so that
concrete states evaluate inside the kernel. -/
def jsTrim (s : String) : String :=
  String.mk (((s.data.dropWhile Char.isWhitespace).reverse.dropWhile
    Char.isWhitespace).reverse)

/-- `String.prototype.toUpperCase()` (per-character, as in the source's
ASCII room codes). -/
def jsToUpper (s : String) : String := String.mk (s.data.map Char.toUpper)

/-- `String.prototype.toLowerCase()`. -/
def jsToLower (s : String) : String := String.mk (s.data.map Char.toLower)

/-- `String(x).trim().toUpperCase()` as applied to room ids by every handler. -/
def normId (sr : String) : String := jsToUpper (jsTrim sr)

/-- One entry of the persisted user directory (interface `UserRecord`). -/
structure UserRecord where
  userId : String
  displayName : String
  friendCode : String
  friends : List String
  avatarDataUrl : Option String
deriving DecidableEq

/-- interface `InviteRecord`. -/
structure InviteRecord where
  inviteId : String
  fromUserId : String
  toUserId : String
  roomId : String
  gameId : String
  createdAt : String
deriving DecidableEq

/-- The session `mode` discriminator: `"lockstep" | "stream"`. -/
inductive SessionMode where
  | lockstep
  | stream
deriving DecidableEq

/-- The optional `session` descriptor attached to a room. -/
structure Session where
  mode : SessionMode
  gameId : String
  gameName : String
  platform : String
  emulatorId : Option String
  romHash : Option String
  protocolVersion : Option String
  coreVersion : Option String
  romBase64 : Option String
  startedAt : String
deriving DecidableEq

/-- One chat entry as built by the `room:chat:send` handler. -/
structure ChatMessage where
  id : String
  roomId : String
  fromUserId : String
  fromDisplayName : String
  text : String
  createdAt : String
deriving DecidableEq

/-- interface `RoomRecord`. -/
structure RoomRecord where
  roomId : String
  hostUserId : String
  gameId : String
  members : List String
  spectators : List String
  locked : Bool
  readyByUserId : List String
  chat : List ChatMessage
  session : Option Session
deriving DecidableEq

/-- The mutable registries of the server: `users`, `rooms`, `invites`.
The JavaScript `Map`s keyed by `roomId` / `inviteId` are represented as
lists of records; the key of an entry is the corresponding id field,
which the source never changes after insertion. -/
structure ServerState where
  users : List UserRecord
  rooms : List RoomRecord
  invites : List InviteRecord
deriving DecidableEq

/-- `rooms.get(roomId)`. -/
def roomsGet (rooms : List RoomRecord) (rid : String) : Option RoomRecord :=
  rooms.find? (fun r => r.roomId == rid)

/-- `rooms.set(room.roomId, room)`: replace the entry with the same key,
or append a fresh entry. -/
def roomsSet (rooms : List RoomRecord) (room : RoomRecord) : List RoomRecord :=
  if rooms.any (fun r => r.roomId == room.roomId) then
    rooms.map (fun r => if r.roomId == room.roomId then room else r)
  else
    rooms ++ [room]

/-- `invites.get(inviteId)`. -/
def invitesGet (invites : List InviteRecord) (iid : String) : Option InviteRecord :=
  invites.find? (fun i => i.inviteId == iid)

/-- `users.find(u => u.userId === userId)` (`getUserById`). -/
def getUserById (users : List UserRecord) (userId : String) : Option UserRecord :=
  users.find? (fun u => u.userId == userId)

/-- `users.find(u => u.friendCode.toUpperCase() === friendCode.toUpperCase())`
(`getUserByCode`). -/
def getUserByCode (users : List UserRecord) (friendCode : String) : Option UserRecord :=
  users.find? (fun u => jsToUpper u.friendCode == jsToUpper friendCode)

/-- Replace the first element satisfying `p` by its image under `f`;
models in-place mutation of the object returned by `Array.prototype.find`. -/
def updateFirst (p : α → Bool) (f : α → α) : List α → List α
  | [] => []
  | x :: xs => if p x then f x :: xs else x :: updateFirst p f xs

/-- The error component of a handler response (`ok:false` with message). -/
def resultError? : Except String α → Option String
  | .error e => some e
  | .ok _ => none

/-- The payload of a successful handler response. -/
def resultVal? : Except String α → Option α
  | .error _ => none
  | .ok a => some a

/-- Whether a handler response is `ok:true`. -/
def resultOk : Except String α → Bool
  | .error _ => false
  | .ok _ => true

/-- `room.session?.mode === "stream"`. -/
def sessionIsStream : Option Session → Bool
  | some ses => ses.mode == SessionMode.stream
  | none => false

/-! ## Handlers

Each request handler of the `message` dispatcher, as a pure function.
The actor id is the user bound to the sending socket; ids generated by
`uuidv4()` and timestamps from `new Date().toISOString()` enter as
parameters. -/

/-- The guarded `friends.push` of the `friends:add` handler: insert a
directed friend edge unless it is already present. -/
def addFriendEdge (fid : String) (u : UserRecord) : UserRecord :=
  if fid ∈ u.friends then u else { u with friends := u.friends ++ [fid] }

/-- The user-directory update of a successful `friends:add`: first the
actor's record (found by user id) gains the edge to the friend, then the
friend's record (found by code) gains the edge to the actor. -/
def friendsAddUsers (s : ServerState) (actorId code : String)
    (actor friendRec : UserRecord) : List UserRecord :=
  updateFirst (fun u => jsToUpper u.friendCode == jsToUpper code)
    (addFriendEdge actor.userId)
    (updateFirst (fun u => u.userId == actorId)
      (addFriendEdge friendRec.userId) s.users)

/-- `friends:add`. -/
def friendsAdd (s : ServerState) (actorId codeRaw : String) :
    Except String Unit × ServerState :=
  let code := jsTrim codeRaw
  match getUserById s.users actorId, getUserByCode s.users code with
  | some actor, some friendRec =>
    if friendRec.userId = actor.userId then (.error "Cannot add yourself", s)
    else (.ok (), { s with users := friendsAddUsers s actorId code actor friendRec })
  | _, _ => (.error "Friend code not found", s)

/-- The fresh room record built by `room:create`. -/
def createdRoom (actorId gameId rid : String) : RoomRecord :=
  { roomId := rid, hostUserId := actorId, gameId, members := [actorId],
    spectators := [], locked := false, readyByUserId := [], chat := [],
    session := none }

/-- `room:create`; `rid` is the freshly generated short code. -/
def roomCreate (s : ServerState) (actorId gidRaw rid : String) :
    Except String RoomRecord × ServerState :=
  let gameId := jsTrim gidRaw
  if gameId = "" then (.error "gameId is required", s)
  else
    (.ok (createdRoom actorId gameId rid),
     { s with rooms := roomsSet s.rooms (createdRoom actorId gameId rid) })

/-- The membership/spectator update performed by a successful `room:join`. -/
def joinedRoom (room : RoomRecord) (actorId : String) (spectator : Bool) : RoomRecord :=
  let members1 := if actorId ∈ room.members then room.members
                  else room.members ++ [actorId]
  let spect1 :=
    if spectator then
      (if actorId ∈ room.spectators then room.spectators
       else room.spectators ++ [actorId])
    else room.spectators.filter (fun x => decide (x ≠ actorId))
  { room with members := members1, spectators := spect1 }

/-- `room:join`. -/
def roomJoin (s : ServerState) (actorId ridRaw : String) (spectator : Bool) :
    Except String RoomRecord × ServerState :=
  let rid := normId ridRaw
  match roomsGet s.rooms rid with
  | none => (.error "Room not found", s)
  | some room =>
    if room.locked ∧ actorId ∉ room.members then (.error "Room is locked", s)
    else if sessionIsStream room.session ∧ actorId ∉ room.members ∧ spectator = false then
      (.error "Streaming room is full", s)
    else
      (.ok (joinedRoom room actorId spectator),
       { s with rooms := roomsSet s.rooms (joinedRoom room actorId spectator) })

/-- `room:state`. -/
def roomState (s : ServerState) (actorId ridRaw : String) :
    Except String RoomRecord :=
  match roomsGet s.rooms (normId ridRaw) with
  | none => .error "Room not found"
  | some room =>
    if actorId ∉ room.members then .error "Not a room member"
    else .ok room

/-- `room:chat:history`; `room.chat.slice(-100)`. -/
def chatHistory (s : ServerState) (actorId ridRaw : String) :
    Except String (List ChatMessage) :=
  match roomsGet s.rooms (normId ridRaw) with
  | none => .error "Room not found"
  | some room =>
    if actorId ∉ room.members then .error "Not a room member"
    else .ok (room.chat.drop (room.chat.length - 100))

/-- The message record built by `room:chat:send`: display name of the
sender (falling back to "Player"), text trimmed and truncated to 400
characters (`text.slice(0, 400)` on the character list). -/
def chatMessageOf (s : ServerState) (actorId : String) (room : RoomRecord)
    (textRaw msgId now : String) : ChatMessage :=
  { id := msgId, roomId := room.roomId, fromUserId := actorId
    fromDisplayName :=
      match getUserById s.users actorId with
      | some u => if u.displayName = "" then "Player" else u.displayName
      | none => "Player"
    text := String.mk ((jsTrim textRaw).data.take 400)
    createdAt := now }

/-- Appending a chat message and trimming the log to the most recent 200
entries (`room.chat.push`; `room.chat.slice(-200)` when over 200). -/
def chattedRoom (room : RoomRecord) (message : ChatMessage) : RoomRecord :=
  let chat1 := room.chat ++ [message]
  { room with chat := if chat1.length > 200 then chat1.drop (chat1.length - 200) else chat1 }

/-- `room:chat:send`; `msgId` is the generated uuid, `now` the timestamp.
`text.slice(0, 400)` and `chat.slice(-200)` become `List.take`/`List.drop`
on the character list / chat list. -/
def chatSend (s : ServerState) (actorId ridRaw textRaw msgId now : String) :
    Except String ChatMessage × ServerState :=
  let rid := normId ridRaw
  let text := jsTrim textRaw
  match roomsGet s.rooms rid with
  | none => (.error "Room not found", s)
  | some room =>
    if actorId ∉ room.members then (.error "Not a room member", s)
    else if text = "" then (.error "Message is empty", s)
    else
      let message := chatMessageOf s actorId room textRaw msgId now
      (.ok message, { s with rooms := roomsSet s.rooms (chattedRoom room message) })

/-- The ready-set update performed by a successful `room:ready`: the set
is first re-filtered against the member list, then the actor is toggled. -/
def readiedRoom (room : RoomRecord) (actorId : String) (ready : Bool) : RoomRecord :=
  let ready0 := room.readyByUserId.filter (fun x => decide (x ∈ room.members))
  let ready1 :=
    if ready then (if actorId ∈ ready0 then ready0 else ready0 ++ [actorId])
    else ready0.filter (fun x => decide (x ≠ actorId))
  { room with readyByUserId := ready1 }

/-- `room:ready`. -/
def roomReady (s : ServerState) (actorId ridRaw : String) (ready : Bool) :
    Except String RoomRecord × ServerState :=
  match roomsGet s.rooms (normId ridRaw) with
  | none => (.error "Room not found", s)
  | some room =>
    if actorId ∉ room.members then (.error "Not a room member", s)
    else if actorId ∈ room.spectators then (.error "Spectator cannot toggle ready", s)
    else
      (.ok (readiedRoom room actorId ready),
       { s with rooms := roomsSet s.rooms (readiedRoom room actorId ready) })

/-- `room:lock`. -/
def roomLock (s : ServerState) (actorId ridRaw : String) (locked : Bool) :
    Except String RoomRecord × ServerState :=
  match roomsGet s.rooms (normId ridRaw) with
  | none => (.error "Room not found", s)
  | some room =>
    if room.hostUserId ≠ actorId then (.error "Only host can change lock", s)
    else
      let room' := { room with locked := locked }
      (.ok room', { s with rooms := roomsSet s.rooms room' })

/-- Removing one user from members/spectators and re-filtering the ready
set, as done by `room:kick` (on the target) and by the non-host branch of
`room:close` (on the caller). -/
def strippedRoom (room : RoomRecord) (userId : String) : RoomRecord :=
  let members1 := room.members.filter (fun x => decide (x ≠ userId))
  let spect1 := room.spectators.filter (fun x => decide (x ≠ userId))
  let ready1 := room.readyByUserId.filter
    (fun x => decide (x ≠ userId ∧ x ∈ members1))
  { room with members := members1, spectators := spect1, readyByUserId := ready1 }

/-- `room:kick`. -/
def roomKick (s : ServerState) (actorId ridRaw targetRaw : String) :
    Except String RoomRecord × ServerState :=
  let target := jsTrim targetRaw
  match roomsGet s.rooms (normId ridRaw) with
  | none => (.error "Room not found", s)
  | some room =>
    if room.hostUserId ≠ actorId then (.error "Only host can kick", s)
    else if target = "" ∨ target = actorId then (.error "Invalid target user", s)
    else if target ∉ room.members then (.error "Target user is not in room", s)
    else
      (.ok (strippedRoom room target),
       { s with rooms := roomsSet s.rooms (strippedRoom room target) })

/-- `room:transferHost`. -/
def roomTransferHost (s : ServerState) (actorId ridRaw targetRaw : String) :
    Except String RoomRecord × ServerState :=
  let target := jsTrim targetRaw
  match roomsGet s.rooms (normId ridRaw) with
  | none => (.error "Room not found", s)
  | some room =>
    if room.hostUserId ≠ actorId then (.error "Only host can transfer host", s)
    else if target = "" ∨ target ∉ room.members then
      (.error "Target user is not in room", s)
    else if target = actorId then (.ok room, s)
    else
      let room' := { room with hostUserId := target }
      (.ok room', { s with rooms := roomsSet s.rooms room' })

/-- `netplay:start`; `now` is the timestamp. -/
def netplayStart (s : ServerState)
    (actorId ridRaw gidRaw gameNameRaw platformRaw emulatorIdRaw romHashRaw
     protocolVersionRaw coreVersionRaw romBase64 now : String) :
    Except String Unit × ServerState :=
  let gameId := jsTrim gidRaw
  let gameName := if jsTrim gameNameRaw = "" then "Netplay" else jsTrim gameNameRaw
  let platform := if jsTrim platformRaw = "" then "NES" else jsTrim platformRaw
  let emulatorId := jsToLower (jsTrim emulatorIdRaw)
  let romHash := jsToLower (jsTrim romHashRaw)
  let protocolVersion := if jsTrim protocolVersionRaw = "" then "1" else jsTrim protocolVersionRaw
  let coreVersion := if jsTrim coreVersionRaw = "" then "unknown" else jsTrim coreVersionRaw
  match roomsGet s.rooms (normId ridRaw) with
  | none => (.error "Room not found", s)
  | some room =>
    if room.hostUserId ≠ actorId then (.error "Only host can start netplay", s)
    else if actorId ∉ room.members then (.error "Not a room member", s)
    else if gameId = "" ∨ romBase64 = "" ∨ emulatorId = "" ∨ romHash = "" then
      (.error "gameId, romBase64, emulatorId and romHash are required", s)
    else
      let ses : Session :=
        { mode := .lockstep, gameId, gameName, platform
          emulatorId := some emulatorId
          romHash := some romHash
          protocolVersion := some protocolVersion
          coreVersion := some coreVersion
          romBase64 := some romBase64
          startedAt := now }
      let room' := { room with session := some ses }
      (.ok (), { s with rooms := roomsSet s.rooms room' })

/-- `stream:start`; `now` is the timestamp. -/
def streamStart (s : ServerState)
    (actorId ridRaw gidRaw gameNameRaw platformRaw now : String) :
    Except String Unit × ServerState :=
  let gameId := jsTrim gidRaw
  let gameName := if jsTrim gameNameRaw = "" then "Netplay" else jsTrim gameNameRaw
  let platform := if jsTrim platformRaw = "" then "NES" else jsTrim platformRaw
  match roomsGet s.rooms (normId ridRaw) with
  | none => (.error "Room not found", s)
  | some room =>
    if room.hostUserId ≠ actorId then (.error "Only host can start stream", s)
    else if actorId ∉ room.members then (.error "Not a room member", s)
    else if gameId = "" then (.error "gameId is required", s)
    else
      let players := room.members.filter (fun uid => decide (uid ∉ room.spectators))
      if players.length ≠ 2 then
        (.error "Streaming mode requires exactly 2 members", s)
      else
        let ses : Session :=
          { mode := .stream, gameId, gameName, platform
            emulatorId := none
            romHash := none
            protocolVersion := none
            coreVersion := none
            romBase64 := none
            startedAt := now }
        let room' := { room with session := some ses }
        (.ok (), { s with rooms := roomsSet s.rooms room' })

/-- `netplay:input`; `frame`/`state` are `none` when `Number(...)` is not
finite.  The handler only relays, so no state change. -/
def netplayInput (s : ServerState) (actorId ridRaw : String)
    (frame state : Option Int) : Except String Unit :=
  match roomsGet s.rooms (normId ridRaw) with
  | none => .error "Room not found"
  | some room =>
    if actorId ∉ room.members then .error "Not a room member"
    else match room.session with
    | none => .error "Netplay not started"
    | some ses =>
      if ses.mode ≠ .lockstep then .error "Room is in streaming mode"
      else match frame, state with
      | some _, some _ => .ok ()
      | _, _ => .error "frame and state are required"

/-- `stream:signal`; `signalIsObject` models `typeof signal === "object"`
with a non-null value. -/
def streamSignal (s : ServerState) (actorId ridRaw targetRaw : String)
    (signalIsObject : Bool) : Except String Unit :=
  let target := jsTrim targetRaw
  match roomsGet s.rooms (normId ridRaw) with
  | none => .error "Room not found"
  | some room =>
    if actorId ∉ room.members then .error "Not a room member"
    else if target = "" ∨ target ∉ room.members then .error "Target is not in room"
    else if ¬ signalIsObject then .error "signal payload is required"
    else .ok ()

/-- `stream:input`. -/
def streamInput (s : ServerState) (actorId ridRaw : String)
    (state : Option Int) : Except String Unit :=
  match roomsGet s.rooms (normId ridRaw) with
  | none => .error "Room not found"
  | some room =>
    if actorId ∉ room.members then .error "Not a room member"
    else if actorId = room.hostUserId then .error "Host should not send stream input"
    else match state with
    | none => .error "state is required"
    | some _ =>
      if sessionIsStream room.session then .ok ()
      else .error "Streaming mode is not active"

/-- `room:pause`; `paused` is `none` when the flag is not a boolean. -/
def roomPause (s : ServerState) (actorId ridRaw : String)
    (paused : Option Bool) : Except String Unit :=
  match roomsGet s.rooms (normId ridRaw) with
  | none => .error "Room not found"
  | some room =>
    if actorId ∉ room.members then .error "Not a room member"
    else match room.session with
    | none => .error "Session is not active"
    | some _ =>
      match paused with
      | none => .error "paused flag is required"
      | some _ => .ok ()

/-- `room:close`.  The `ok` payload is the `closed` flag. -/
def roomClose (s : ServerState) (actorId ridRaw : String) :
    Except String Bool × ServerState :=
  let rid := normId ridRaw
  if rid = "" then (.error "roomId is required", s)
  else match roomsGet s.rooms rid with
  | none => (.ok false, s)
  | some room =>
    if actorId ∉ room.members then (.error "Not a room member", s)
    else if room.hostUserId = actorId then
      (.ok true, { s with rooms := s.rooms.filter (fun r => decide (r.roomId ≠ room.roomId)) })
    else
      (.ok true, { s with rooms := roomsSet s.rooms (strippedRoom room actorId) })

/-- The success payload of `invite:respond`. -/
inductive InviteOutcome where
  | declined
  | accepted (finalRoomId : String)
deriving DecidableEq

/-- `invite:respond`. -/
def inviteRespond (s : ServerState) (actorId inviteIdRaw : String)
    (accept : Bool) : Except String InviteOutcome × ServerState :=
  let inviteId := jsTrim inviteIdRaw
  match invitesGet s.invites inviteId with
  | none => (.error "Invite not found", s)
  | some invite =>
    if invite.toUserId ≠ actorId then (.error "Invite does not belong to user", s)
    else
      let s1 := { s with invites := s.invites.filter (fun i => decide (i.inviteId ≠ inviteId)) }
      if accept = false then (.ok .declined, s1)
      else match roomsGet s1.rooms invite.roomId with
      | none => (.error "Room no longer exists", s1)
      | some room =>
        if sessionIsStream room.session ∧ actorId ∉ room.members ∧ 2 ≤ room.members.length then
          (.error "Streaming room is full", s1)
        else if room.locked ∧ actorId ∉ room.members then (.error "Room is locked", s1)
        else
          let room' := if actorId ∈ room.members then room
                       else { room with members := room.members ++ [actorId] }
          (.ok (.accepted room'.roomId), { s1 with rooms := roomsSet s1.rooms room' })

/-- The per-room body of `removeUserFromRooms`: strip the user, destroy
the room when members becomes empty, fail the host over to the first
remaining member. -/
def leaveRoom (userId : String) (room : RoomRecord) : Option RoomRecord :=
  if userId ∈ room.members then
    let members1 := room.members.filter (fun x => decide (x ≠ userId))
    let spect1 := room.spectators.filter (fun x => decide (x ≠ userId))
    let ready1 := room.readyByUserId.filter (fun x => decide (x ∈ members1))
    match members1 with
    | [] => none
    | m0 :: rest =>
      some { room with
        members := m0 :: rest
        spectators := spect1
        readyByUserId := ready1
        hostUserId := if room.hostUserId = userId then m0 else room.hostUserId }
  else some room

/-- `removeUserFromRooms`, run on socket close (implicit leave). -/
def removeUserFromRooms (userId : String) (rooms : List RoomRecord) :
    List RoomRecord :=
  rooms.filterMap (leaveRoom userId)

/-! ## Client-side lockstep engines

Two independent implementations exist in the client: the NES loop in
`App.tsx` (gated stepping, frame-keyed `Map`s of input bitmasks) and the
SNES `applyStates` loop in `SnesGameView` (ungated, advancing every
animation tick).  Frame-keyed `Map<number, number>`s become association
lists over `Nat`. -/

/-- `const LOCKSTEP_INPUT_DELAY_FRAMES = 3`. -/
def LOCKSTEP_INPUT_DELAY_FRAMES : Nat := 3

/-- `map.get(frame)` on a frame-keyed input buffer. -/
def lookupFrame (m : List (Nat × Nat)) (f : Nat) : Option Nat :=
  (m.find? (fun e => e.fst == f)).map (fun e => e.snd)

/-- `map.set(frame, v)`. -/
def setFrame (m : List (Nat × Nat)) (f v : Nat) : List (Nat × Nat) :=
  if m.any (fun e => e.fst == f) then
    m.map (fun e => if e.fst == f then (f, v) else e)
  else m ++ [(f, v)]

/-- The local variables of the NES lockstep loop in `App.tsx`, plus a
trace `simulatedFrames` recording each frame index for which
`nes.frame()` was executed. -/
structure NesLockstepState where
  currentFrame : Nat
  plannedLocalFrame : Nat
  localInputState : Nat
  previousLocalAppliedState : Nat
  previousRemoteAppliedState : Nat
  localStateByFrame : List (Nat × Nat)
  remoteStateByFrame : List (Nat × Nat)
  simulatedFrames : List Nat
deriving DecidableEq

/-- One iteration of
`while (plannedLocalFrame <= currentFrame + LOCKSTEP_INPUT_DELAY_FRAMES)`,
with explicit fuel (the fuel passed by `nesFillPhase` always suffices,
see `nesFillPhaseAux_planned`). -/
def nesFillPhaseAux : Nat → NesLockstepState → NesLockstepState
  | 0, s => s
  | fuel + 1, s =>
    if s.plannedLocalFrame ≤ s.currentFrame + LOCKSTEP_INPUT_DELAY_FRAMES then
      nesFillPhaseAux fuel { s with
        localStateByFrame := setFrame s.localStateByFrame s.plannedLocalFrame s.localInputState
        plannedLocalFrame := s.plannedLocalFrame + 1 }
    else s

/-- The input-planning phase at the top of the lockstep branch of `loop`. -/
def nesFillPhase (s : NesLockstepState) : NesLockstepState :=
  nesFillPhaseAux (s.currentFrame + LOCKSTEP_INPUT_DELAY_FRAMES + 1) s

/-- The `while (steps < 2)` catch-up loop: a frame is stepped only when
both buffered bitmasks for `currentFrame` are present; otherwise `break`. -/
def nesStepPhase : Nat → NesLockstepState → NesLockstepState
  | 0, s => s
  | steps + 1, s =>
    match lookupFrame s.localStateByFrame s.currentFrame,
          lookupFrame s.remoteStateByFrame s.currentFrame with
    | some lf, some rf =>
      nesStepPhase steps { s with
        previousLocalAppliedState := lf
        previousRemoteAppliedState := rf
        simulatedFrames := s.simulatedFrames ++ [s.currentFrame]
        currentFrame := s.currentFrame + 1 }
    | _, _ => s

/-- The periodic buffer pruning (`currentFrame % 120 === 0`, keep keys
`≥ max(0, currentFrame - 180)`). -/
def nesPrune (s : NesLockstepState) : NesLockstepState :=
  if s.currentFrame % 120 = 0 then
    let minFrameToKeep := s.currentFrame - 180
    { s with
      localStateByFrame := s.localStateByFrame.filter (fun e => decide (¬ e.fst < minFrameToKeep))
      remoteStateByFrame := s.remoteStateByFrame.filter (fun e => decide (¬ e.fst < minFrameToKeep)) }
  else s

/-- One animation tick of the lockstep branch of `loop` in `App.tsx`. -/
def nesLockstepTick (s : NesLockstepState) : NesLockstepState :=
  nesPrune (nesStepPhase 2 (nesFillPhase s))

/-- The `netplay:input` event listener installed by the NES loop. -/
def nesOnRemoteInput (s : NesLockstepState) (frame state : Nat) : NesLockstepState :=
  { s with remoteStateByFrame := setFrame s.remoteStateByFrame frame state }

/-- The initial lockstep state of `App.tsx`: frames `0..2` of the local
buffer are pre-seeded with mask `0` and `plannedLocalFrame` starts at the
delay. -/
def nesLockstepInit : NesLockstepState :=
  { currentFrame := 0
    plannedLocalFrame := LOCKSTEP_INPUT_DELAY_FRAMES
    localInputState := 0
    previousLocalAppliedState := 0
    previousRemoteAppliedState := 0
    localStateByFrame := (List.range LOCKSTEP_INPUT_DELAY_FRAMES).map (fun f => (f, 0))
    remoteStateByFrame := []
    simulatedFrames := [] }

/-- The local variables of the SNES `applyStates` loop in `SnesGameView`,
plus a trace `appliedInputs` of `(frame, player1Mask, player2Mask)`
triples passed to `session.setInput`. -/
structure SnesLockstepState where
  currentFrame : Nat
  localInputState : Nat
  previousLocalAppliedState : Nat
  previousRemoteAppliedState : Nat
  localStateByFrame : List (Nat × Nat)
  remoteStateByFrame : List (Nat × Nat)
  localPlayer : Nat
  appliedInputs : List (Nat × Nat × Nat)
deriving DecidableEq

/-- One animation tick of the lockstep branch of `applyStates` in
`SnesGameView`: when a bitmask for `currentFrame` is absent the
previously applied mask is substituted, and `currentFrame` advances
unconditionally. -/
def snesApplyStatesTick (s : SnesLockstepState) : SnesLockstepState :=
  let localStateForFrame :=
    match lookupFrame s.localStateByFrame s.currentFrame with
    | some v => v
    | none => s.previousLocalAppliedState
  let remoteStateForFrame :=
    match lookupFrame s.remoteStateByFrame s.currentFrame with
    | some v => v
    | none => s.previousRemoteAppliedState
  let player1State := if s.localPlayer = 1 then localStateForFrame else remoteStateForFrame
  let player2State := if s.localPlayer = 1 then remoteStateForFrame else localStateForFrame
  { s with
    previousLocalAppliedState := localStateForFrame
    previousRemoteAppliedState := remoteStateForFrame
    appliedInputs := s.appliedInputs ++ [(s.currentFrame, player1State, player2State)]
    currentFrame := s.currentFrame + 1 }

/-- The initial state of the SNES `applyStates` loop (all counters zero,
both buffers empty). -/
def snesLockstepInit (localPlayer : Nat) : SnesLockstepState :=
  { currentFrame := 0
    localInputState := 0
    previousLocalAppliedState := 0
    previousRemoteAppliedState := 0
    localStateByFrame := []
    remoteStateByFrame := []
    localPlayer := localPlayer
    appliedInputs := [] }

/-! ## Mutating room operations, bundled -/

/-- The mutating room operations of the registry, with the request
arguments each handler consumes. -/
inductive RoomOp where
  | create (actorId gidRaw rid : String)
  | join (actorId ridRaw : String) (spectator : Bool)
  | setReady (actorId ridRaw : String) (ready : Bool)
  | setLock (actorId ridRaw : String) (locked : Bool)
  | kick (actorId ridRaw targetRaw : String)
  | transferHost (actorId ridRaw targetRaw : String)
  | close (actorId ridRaw : String)
  | leave (userId : String)
  | chat (actorId ridRaw textRaw msgId now : String)
  | sessionLockstep (actorId ridRaw gidRaw gameNameRaw platformRaw emulatorIdRaw
      romHashRaw protocolVersionRaw coreVersionRaw romBase64 now : String)
  | sessionStream (actorId ridRaw gidRaw gameNameRaw platformRaw now : String)

/-- Apply a mutating room operation to the server state (the response is
discarded; `leave` is the implicit-disconnect cleanup). -/
def applyRoomOp (s : ServerState) : RoomOp → ServerState
  | .create a g r => (roomCreate s a g r).2
  | .join a r sp => (roomJoin s a r sp).2
  | .setReady a r b => (roomReady s a r b).2
  | .setLock a r b => (roomLock s a r b).2
  | .kick a r t => (roomKick s a r t).2
  | .transferHost a r t => (roomTransferHost s a r t).2
  | .close a r => (roomClose s a r).2
  | .leave u => { s with rooms := removeUserFromRooms u s.rooms }
  | .chat a r t m n => (chatSend s a r t m n).2
  | .sessionLockstep a r g gn p e h pv cv rb n => (netplayStart s a r g gn p e h pv cv rb n).2
  | .sessionStream a r g gn p n => (streamStart s a r g gn p n).2

/-- Invariant: the ready set is contained in the member list. -/
def ReadySubset (room : RoomRecord) : Prop :=
  ∀ x ∈ room.readyByUserId, x ∈ room.members

/-- Invariant: no spectator is in the ready set. -/
def SpectReadyDisjoint (room : RoomRecord) : Prop :=
  ∀ x ∈ room.spectators, x ∉ room.readyByUserId

/-- Invariant: the host is a member. -/
def HostMem (room : RoomRecord) : Prop :=
  room.hostUserId ∈ room.members

instance (room : RoomRecord) : Decidable (ReadySubset room) := by
  unfold ReadySubset; infer_instance

instance (room : RoomRecord) : Decidable (SpectReadyDisjoint room) := by
  unfold SpectReadyDisjoint; infer_instance

instance (room : RoomRecord) : Decidable (HostMem room) := by
  unfold HostMem; infer_instance

/-- The one operation that breaks spectator/ready disjointness: a
`room:join` with `spectator:true` by an actor currently in the target
room's ready set. -/
def SpectatorJoinOfReady (s : ServerState) : RoomOp → Prop
  | .join actorId ridRaw spectator =>
    spectator = true ∧
      match roomsGet s.rooms (normId ridRaw) with
      | some room => actorId ∈ room.readyByUserId
      | none => False
  | _ => False

/-- Classification of an admission attempt into a room: success, failure
because of the lock, failure because a streaming room is full, or some
other failure. -/
inductive AdmitOutcome where
  | admitted
  | lockedOut
  | fullOut
  | otherOut (e : String)
deriving DecidableEq

/-- Classify a handler response as an admission decision. -/
def admitClassify : Except String α → AdmitOutcome
  | .ok _ => .admitted
  | .error e =>
    if e = "Room is locked" then .lockedOut
    else if e = "Streaming room is full" then .fullOut
    else .otherOut e

/-! ## Concrete states used by the witnesses and counterexamples -/

/-- The server state right after startup: no users, rooms or invites. -/
def emptyState : ServerState :=
  { users := [], rooms := [], invites := [] }

/-- User `a` creates room `R1`, user `b` joins as a player, `b` toggles
ready on, then `b` re-joins the same room as a spectator. -/
def c2State : ServerState :=
  applyRoomOp (applyRoomOp (applyRoomOp (applyRoomOp emptyState
    (.create "a" "g" "R1")) (.join "b" "R1" false)) (.setReady "b" "R1" true))
    (.join "b" "R1" true)

/-- The room record held by `c2State`: `b` is simultaneously a spectator
and ready. -/
def c2Room : RoomRecord :=
  { roomId := "R1", hostUserId := "a", gameId := "g", members := ["a", "b"],
    spectators := ["b"], locked := false, readyByUserId := ["b"], chat := [],
    session := none }

/-- Host `h` creates room `ROOM`, player `g` joins, the host starts a
stream session (two players present), then `g` leaves: a live
stream-mode room holding a single active player. -/
def c4State : ServerState :=
  (roomClose (streamStart (roomJoin (roomCreate emptyState "h" "g" "ROOM").2
    "g" "ROOM" false).2 "h" "ROOM" "g" "" "" "t0").2 "g" "ROOM").2

/-- The room record held by `c4State`. -/
def c4Room : RoomRecord :=
  { roomId := "ROOM", hostUserId := "h", gameId := "g", members := ["h"],
    spectators := [], locked := false, readyByUserId := [], chat := [],
    session := some
      { mode := .stream, gameId := "g", gameName := "Netplay", platform := "NES",
        emulatorId := none, romHash := none, protocolVersion := none,
        coreVersion := none, romBase64 := none, startedAt := "t0" } }

/-- A pending invite for `b` into room `ROOM`. -/
def c3Invite : InviteRecord :=
  { inviteId := "I1", fromUserId := "h", toUserId := "b", roomId := "ROOM",
    gameId := "g", createdAt := "t0" }

/-- `c4State` together with a pending invite of `b` into `ROOM`. -/
def c3State : ServerState :=
  { c4State with invites := [c3Invite] }

/-- Two registered users who are not yet friends. -/
def c8State : ServerState :=
  { users := [
      { userId := "a", displayName := "A", friendCode := "AAAA", friends := [],
        avatarDataUrl := none },
      { userId := "b", displayName := "B", friendCode := "BBBB", friends := [],
        avatarDataUrl := none }]
    rooms := []
    invites := [] }

/-- A state holding one pending invite addressed to `b`. -/
def c10State : ServerState :=
  { users := [], rooms := [], invites := [
      { inviteId := "I1", fromUserId := "h", toUserId := "b", roomId := "R1",
        gameId := "g", createdAt := "t0" }] }

/-- The pending invite of `c10State`. -/
def c10Invite : InviteRecord :=
  { inviteId := "I1", fromUserId := "h", toUserId := "b", roomId := "R1",
    gameId := "g", createdAt := "t0" }

/-- A server state holding the freshly created room `R1` of host `a`. -/
def c7State : ServerState :=
  (roomCreate emptyState "a" "g" "R1").2

/-- The room record held by `c7State`. -/
def c7Room : RoomRecord := createdRoom "a" "g" "R1"

/-- The room record held by the state right before `stream:start` in the
`c4State` scenario: two active players. -/
def c5State : ServerState :=
  (roomJoin (roomCreate emptyState "h" "g" "ROOM").2 "g" "ROOM" false).2

/-- The room record held by `c5State`. -/
def c5Room : RoomRecord :=
  { roomId := "ROOM", hostUserId := "h", gameId := "g", members := ["h", "g"],
    spectators := [], locked := false, readyByUserId := [], chat := [],
    session := none }

/-- The NES lockstep state after the remote bitmask `7` for frame `0`
has arrived. -/
def c1WitnessState : NesLockstepState :=
  nesOnRemoteInput nesLockstepInit 0 7

/-- The SNES `applyStates` state at session start (host side). -/
def c1SnesState : SnesLockstepState := snesLockstepInit 1

/-! ## Basic lemmas about the registry primitives -/

theorem mem_roomsSet {rooms : List RoomRecord} {room r : RoomRecord}
    (h : r ∈ roomsSet rooms room) : r = room ∨ r ∈ rooms := by
  unfold roomsSet at h
  split at h
  · rcases List.mem_map.mp h with ⟨a, ha, hfa⟩
    by_cases hk : a.roomId == room.roomId
    · simp [hk] at hfa; exact Or.inl hfa.symm
    · simp [hk] at hfa; exact Or.inr (hfa ▸ ha)
  · rcases List.mem_append.mp h with h' | h'
    · exact Or.inr h'
    · simp at h'; exact Or.inl h'

theorem roomsGet_mem {rooms : List RoomRecord} {rid : String} {room : RoomRecord}
    (h : roomsGet rooms rid = some room) : room ∈ rooms :=
  List.mem_of_find?_eq_some h

theorem roomsGet_roomId {rooms : List RoomRecord} {rid : String} {room : RoomRecord}
    (h : roomsGet rooms rid = some room) : room.roomId = rid := by
  have := List.find?_some h
  simpa using this

theorem forall_roomsSet {P : RoomRecord → Prop} {rooms : List RoomRecord}
    {room' : RoomRecord} (h : ∀ r ∈ rooms, P r) (h' : P room') :
    ∀ r ∈ roomsSet rooms room', P r := by
  intro r hr
  rcases mem_roomsSet hr with rfl | hm
  · exact h'
  · exact h r hm

/-! ## Invariant behaviour of the individual room transforms -/

theorem HostMem_createdRoom (a g rid : String) : HostMem (createdRoom a g rid) := by
  simp [HostMem, createdRoom]

theorem HostMem_joinedRoom {room : RoomRecord} (a : String) (sp : Bool)
    (h : HostMem room) : HostMem (joinedRoom room a sp) := by
  unfold HostMem joinedRoom at *
  dsimp only
  split
  · exact h
  · exact List.mem_append_left _ h

theorem HostMem_readiedRoom {room : RoomRecord} (a : String) (b : Bool)
    (h : HostMem room) : HostMem (readiedRoom room a b) := h

theorem HostMem_strippedRoom {room : RoomRecord} {u : String}
    (h : HostMem room) (hne : room.hostUserId ≠ u) :
    HostMem (strippedRoom room u) := by
  unfold HostMem strippedRoom at *
  dsimp only
  exact List.mem_filter.mpr ⟨h, by simpa using hne⟩

theorem HostMem_chattedRoom {room : RoomRecord} (m : ChatMessage)
    (h : HostMem room) : HostMem (chattedRoom room m) := h

theorem HostMem_leaveRoom {room r : RoomRecord} {u : String}
    (hl : leaveRoom u room = some r) (h : HostMem room) : HostMem r := by
  unfold leaveRoom at hl
  split at hl
  · rcases hfil : room.members.filter (fun x => decide (x ≠ u)) with _ | ⟨m0, rest⟩
    · rw [hfil] at hl; exact absurd hl (by simp)
    · rw [hfil] at hl
      simp only [Option.some.injEq] at hl
      subst hl
      unfold HostMem
      dsimp only
      split
      · exact List.mem_cons_self m0 rest
      · next hne =>
        have : room.hostUserId ∈ room.members.filter (fun x => decide (x ≠ u)) :=
          List.mem_filter.mpr ⟨h, by simpa using hne⟩
        rw [hfil] at this
        exact this
  · simp only [Option.some.injEq] at hl
    exact hl ▸ h

theorem ReadySubset_createdRoom (a g rid : String) : ReadySubset (createdRoom a g rid) := by
  simp [ReadySubset, createdRoom]

theorem ReadySubset_joinedRoom {room : RoomRecord} (a : String) (sp : Bool)
    (h : ReadySubset room) : ReadySubset (joinedRoom room a sp) := by
  unfold ReadySubset joinedRoom at *
  dsimp only
  intro x hx
  split
  · exact h x hx
  · exact List.mem_append_left _ (h x hx)

theorem ReadySubset_readiedRoom {room : RoomRecord} {a : String} (b : Bool)
    (ha : a ∈ room.members) : ReadySubset (readiedRoom room a b) := by
  unfold ReadySubset readiedRoom
  dsimp only
  intro x hx
  split at hx
  · split at hx
    · exact (List.mem_filter.mp hx).2 |> (by simpa using ·)
    · rcases List.mem_append.mp hx with hx' | hx'
      · exact (List.mem_filter.mp hx').2 |> (by simpa using ·)
      · simp at hx'; exact hx' ▸ ha
  · have := List.mem_of_mem_filter hx
    exact (List.mem_filter.mp this).2 |> (by simpa using ·)

theorem ReadySubset_strippedRoom (room : RoomRecord) (u : String) :
    ReadySubset (strippedRoom room u) := by
  unfold ReadySubset strippedRoom
  dsimp only
  intro x hx
  have := (List.mem_filter.mp hx).2
  simp only [decide_eq_true_eq] at this
  exact this.2

theorem ReadySubset_chattedRoom {room : RoomRecord} (m : ChatMessage)
    (h : ReadySubset room) : ReadySubset (chattedRoom room m) := h

theorem ReadySubset_leaveRoom {room r : RoomRecord} {u : String}
    (hl : leaveRoom u room = some r) (h : ReadySubset room) : ReadySubset r := by
  unfold leaveRoom at hl
  split at hl
  · rcases hfil : room.members.filter (fun x => decide (x ≠ u)) with _ | ⟨m0, rest⟩
    · rw [hfil] at hl; exact absurd hl (by simp)
    · rw [hfil] at hl
      simp only [Option.some.injEq] at hl
      subst hl
      unfold ReadySubset
      dsimp only
      intro x hx
      have := (List.mem_filter.mp hx).2
      simpa using this
  · simp only [Option.some.injEq] at hl
    exact hl ▸ h

theorem SpectReadyDisjoint_createdRoom (a g rid : String) :
    SpectReadyDisjoint (createdRoom a g rid) := by
  simp [SpectReadyDisjoint, createdRoom]

theorem SpectReadyDisjoint_joinedRoom {room : RoomRecord} {a : String} {sp : Bool}
    (h : SpectReadyDisjoint room) (ha : sp = true → a ∉ room.readyByUserId) :
    SpectReadyDisjoint (joinedRoom room a sp) := by
  unfold SpectReadyDisjoint joinedRoom at *
  dsimp only
  intro x hx
  cases sp with
  | false =>
    rw [if_neg (show ¬ (false = true) by simp)] at hx
    exact h x (List.mem_of_mem_filter hx)
  | true =>
    rw [if_pos rfl] at hx
    split at hx
    · exact h x hx
    · rcases List.mem_append.mp hx with hx' | hx'
      · exact h x hx'
      · simp at hx'; exact hx' ▸ ha rfl

theorem SpectReadyDisjoint_readiedRoom {room : RoomRecord} {a : String} (b : Bool)
    (h : SpectReadyDisjoint room) (hs : a ∉ room.spectators) :
    SpectReadyDisjoint (readiedRoom room a b) := by
  unfold SpectReadyDisjoint readiedRoom at *
  dsimp only
  intro x hx hmem
  split at hmem
  · split at hmem
    · exact h x hx (List.mem_of_mem_filter hmem)
    · rcases List.mem_append.mp hmem with hm' | hm'
      · exact h x hx (List.mem_of_mem_filter hm')
      · simp at hm'; exact hs (hm' ▸ hx)
  · exact h x hx (List.mem_of_mem_filter (List.mem_of_mem_filter hmem))

theorem SpectReadyDisjoint_strippedRoom {room : RoomRecord} (u : String)
    (h : SpectReadyDisjoint room) : SpectReadyDisjoint (strippedRoom room u) := by
  unfold SpectReadyDisjoint strippedRoom at *
  dsimp only
  intro x hx hmem
  exact h x (List.mem_of_mem_filter hx) (List.mem_of_mem_filter hmem)

theorem SpectReadyDisjoint_chattedRoom {room : RoomRecord} (m : ChatMessage)
    (h : SpectReadyDisjoint room) : SpectReadyDisjoint (chattedRoom room m) := h

theorem SpectReadyDisjoint_leaveRoom {room r : RoomRecord} {u : String}
    (hl : leaveRoom u room = some r) (h : SpectReadyDisjoint room) :
    SpectReadyDisjoint r := by
  unfold leaveRoom at hl
  split at hl
  · rcases hfil : room.members.filter (fun x => decide (x ≠ u)) with _ | ⟨m0, rest⟩
    · rw [hfil] at hl; exact absurd hl (by simp)
    · rw [hfil] at hl
      simp only [Option.some.injEq] at hl
      subst hl
      unfold SpectReadyDisjoint
      dsimp only
      intro x hx hmem
      exact h x (List.mem_of_mem_filter hx) (List.mem_of_mem_filter hmem)
  · simp only [Option.some.injEq] at hl
    exact hl ▸ h

/-! ## Shape of the state returned by each mutating handler -/

theorem roomCreate_state (s : ServerState) (a g rid : String) :
    (roomCreate s a g rid).2 = s ∨
    (roomCreate s a g rid).2 =
      { s with rooms := roomsSet s.rooms (createdRoom a (jsTrim g) rid) } := by
  unfold roomCreate
  dsimp only
  split
  · exact Or.inl rfl
  · exact Or.inr rfl

theorem roomJoin_state (s : ServerState) (a ridRaw : String) (sp : Bool) :
    (roomJoin s a ridRaw sp).2 = s ∨
    ∃ room, roomsGet s.rooms (normId ridRaw) = some room ∧
      (roomJoin s a ridRaw sp).2 =
        { s with rooms := roomsSet s.rooms (joinedRoom room a sp) } := by
  unfold roomJoin
  dsimp only
  cases roomsGet s.rooms (normId ridRaw) with
  | none => exact Or.inl rfl
  | some room =>
    dsimp only
    by_cases h1 : room.locked ∧ a ∉ room.members
    · rw [if_pos h1]; exact Or.inl rfl
    · rw [if_neg h1]
      by_cases h2 : sessionIsStream room.session ∧ a ∉ room.members ∧ sp = false
      · rw [if_pos h2]; exact Or.inl rfl
      · rw [if_neg h2]; exact Or.inr ⟨room, rfl, rfl⟩

theorem roomReady_state (s : ServerState) (a ridRaw : String) (b : Bool) :
    (roomReady s a ridRaw b).2 = s ∨
    ∃ room, roomsGet s.rooms (normId ridRaw) = some room ∧
      a ∈ room.members ∧ a ∉ room.spectators ∧
      (roomReady s a ridRaw b).2 =
        { s with rooms := roomsSet s.rooms (readiedRoom room a b) } := by
  unfold roomReady
  cases roomsGet s.rooms (normId ridRaw) with
  | none => exact Or.inl rfl
  | some room =>
    dsimp only
    by_cases h1 : a ∉ room.members
    · rw [if_pos h1]; exact Or.inl rfl
    · rw [if_neg h1]
      by_cases h2 : a ∈ room.spectators
      · rw [if_pos h2]; exact Or.inl rfl
      · rw [if_neg h2]; exact Or.inr ⟨room, rfl, not_not.mp h1, h2, rfl⟩

theorem roomLock_state (s : ServerState) (a ridRaw : String) (b : Bool) :
    (roomLock s a ridRaw b).2 = s ∨
    ∃ room, roomsGet s.rooms (normId ridRaw) = some room ∧
      (roomLock s a ridRaw b).2 =
        { s with rooms := roomsSet s.rooms { room with locked := b } } := by
  unfold roomLock
  dsimp only
  cases roomsGet s.rooms (normId ridRaw) with
  | none => exact Or.inl rfl
  | some room =>
    dsimp only
    by_cases h1 : room.hostUserId ≠ a
    · rw [if_pos h1]; exact Or.inl rfl
    · rw [if_neg h1]; exact Or.inr ⟨room, rfl, rfl⟩

theorem roomKick_state (s : ServerState) (a ridRaw t : String) :
    (roomKick s a ridRaw t).2 = s ∨
    ∃ room, roomsGet s.rooms (normId ridRaw) = some room ∧
      room.hostUserId = a ∧ (jsTrim t) ≠ a ∧ (jsTrim t) ∈ room.members ∧
      (roomKick s a ridRaw t).2 =
        { s with rooms := roomsSet s.rooms (strippedRoom room (jsTrim t)) } := by
  unfold roomKick
  dsimp only
  cases roomsGet s.rooms (normId ridRaw) with
  | none => exact Or.inl rfl
  | some room =>
    dsimp only
    by_cases h1 : room.hostUserId ≠ a
    · rw [if_pos h1]; exact Or.inl rfl
    · rw [if_neg h1]
      by_cases h2 : (jsTrim t) = "" ∨ (jsTrim t) = a
      · rw [if_pos h2]; exact Or.inl rfl
      · rw [if_neg h2]
        by_cases h3 : (jsTrim t) ∉ room.members
        · rw [if_pos h3]; exact Or.inl rfl
        · rw [if_neg h3]
          exact Or.inr ⟨room, rfl, not_not.mp h1, (not_or.mp h2).2, not_not.mp h3, rfl⟩

theorem roomTransferHost_state (s : ServerState) (a ridRaw t : String) :
    (roomTransferHost s a ridRaw t).2 = s ∨
    ∃ room, roomsGet s.rooms (normId ridRaw) = some room ∧
      (jsTrim t) ∈ room.members ∧
      (roomTransferHost s a ridRaw t).2 =
        { s with rooms := roomsSet s.rooms { room with hostUserId := (jsTrim t) } } := by
  unfold roomTransferHost
  dsimp only
  cases roomsGet s.rooms (normId ridRaw) with
  | none => exact Or.inl rfl
  | some room =>
    dsimp only
    by_cases h1 : room.hostUserId ≠ a
    · rw [if_pos h1]; exact Or.inl rfl
    · rw [if_neg h1]
      by_cases h2 : (jsTrim t) = "" ∨ (jsTrim t) ∉ room.members
      · rw [if_pos h2]; exact Or.inl rfl
      · rw [if_neg h2]
        by_cases h3 : (jsTrim t) = a
        · rw [if_pos h3]; exact Or.inl rfl
        · rw [if_neg h3]
          exact Or.inr ⟨room, rfl, not_not.mp (not_or.mp h2).2, rfl⟩

theorem roomClose_state (s : ServerState) (a ridRaw : String) :
    (roomClose s a ridRaw).2 = s ∨
    (∃ room, roomsGet s.rooms (normId ridRaw) = some room ∧
      (roomClose s a ridRaw).2 =
        { s with rooms := s.rooms.filter (fun r => decide (r.roomId ≠ room.roomId)) }) ∨
    (∃ room, roomsGet s.rooms (normId ridRaw) = some room ∧
      room.hostUserId ≠ a ∧
      (roomClose s a ridRaw).2 =
        { s with rooms := roomsSet s.rooms (strippedRoom room a) }) := by
  unfold roomClose
  dsimp only
  by_cases h0 : normId ridRaw = ""
  · rw [if_pos h0]; exact Or.inl rfl
  · rw [if_neg h0]
    cases roomsGet s.rooms (normId ridRaw) with
    | none => exact Or.inl rfl
    | some room =>
      dsimp only
      by_cases h1 : a ∉ room.members
      · rw [if_pos h1]; exact Or.inl rfl
      · rw [if_neg h1]
        by_cases h2 : room.hostUserId = a
        · rw [if_pos h2]; exact Or.inr (Or.inl ⟨room, rfl, rfl⟩)
        · rw [if_neg h2]; exact Or.inr (Or.inr ⟨room, rfl, h2, rfl⟩)

theorem chatSend_state (s : ServerState) (a ridRaw t m n : String) :
    (chatSend s a ridRaw t m n).2 = s ∨
    ∃ room, roomsGet s.rooms (normId ridRaw) = some room ∧
      ∃ message, (chatSend s a ridRaw t m n).2 =
        { s with rooms := roomsSet s.rooms (chattedRoom room message) } := by
  unfold chatSend
  dsimp only
  cases roomsGet s.rooms (normId ridRaw) with
  | none => exact Or.inl rfl
  | some room =>
    dsimp only
    by_cases h1 : a ∉ room.members
    · rw [if_pos h1]; exact Or.inl rfl
    · rw [if_neg h1]
      by_cases h2 : (jsTrim t) = ""
      · rw [if_pos h2]; exact Or.inl rfl
      · rw [if_neg h2]
        exact Or.inr ⟨room, rfl, chatMessageOf s a room t m n, rfl⟩

theorem netplayStart_state (s : ServerState)
    (a ridRaw g gn p e h pv cv rb n : String) :
    (netplayStart s a ridRaw g gn p e h pv cv rb n).2 = s ∨
    ∃ room, roomsGet s.rooms (normId ridRaw) = some room ∧
      ∃ ses, (netplayStart s a ridRaw g gn p e h pv cv rb n).2 =
        { s with rooms := roomsSet s.rooms { room with session := some ses } } := by
  unfold netplayStart
  dsimp only
  cases roomsGet s.rooms (normId ridRaw) with
  | none => exact Or.inl rfl
  | some room =>
    dsimp only
    by_cases h1 : room.hostUserId ≠ a
    · rw [if_pos h1]; exact Or.inl rfl
    · rw [if_neg h1]
      by_cases h2 : a ∉ room.members
      · rw [if_pos h2]; exact Or.inl rfl
      · rw [if_neg h2]
        by_cases h3 : (jsTrim g) = "" ∨ rb = "" ∨ jsToLower (jsTrim e) = "" ∨ jsToLower (jsTrim h) = ""
        · rw [if_pos h3]; exact Or.inl rfl
        · rw [if_neg h3]
          exact Or.inr ⟨room, rfl, _, rfl⟩

theorem streamStart_state (s : ServerState) (a ridRaw g gn p n : String) :
    (streamStart s a ridRaw g gn p n).2 = s ∨
    ∃ room, roomsGet s.rooms (normId ridRaw) = some room ∧
      ∃ ses, (streamStart s a ridRaw g gn p n).2 =
        { s with rooms := roomsSet s.rooms { room with session := some ses } } := by
  unfold streamStart
  dsimp only
  cases roomsGet s.rooms (normId ridRaw) with
  | none => exact Or.inl rfl
  | some room =>
    dsimp only
    by_cases h1 : room.hostUserId ≠ a
    · rw [if_pos h1]; exact Or.inl rfl
    · rw [if_neg h1]
      by_cases h2 : a ∉ room.members
      · rw [if_pos h2]; exact Or.inl rfl
      · rw [if_neg h2]
        by_cases h3 : (jsTrim g) = ""
        · rw [if_pos h3]; exact Or.inl rfl
        · rw [if_neg h3]
          by_cases h4 : (room.members.filter (fun uid => decide (uid ∉ room.spectators))).length ≠ 2
          · rw [if_pos h4]; exact Or.inl rfl
          · rw [if_neg h4]
            exact Or.inr ⟨room, rfl, _, rfl⟩

/-! ## Preservation of the room invariants by every mutating operation -/

theorem hostMem_applyRoomOp (s : ServerState) (op : RoomOp)
    (hInv : ∀ r ∈ s.rooms, HostMem r) :
    ∀ r ∈ (applyRoomOp s op).rooms, HostMem r := by
  cases op with
  | create a g rid =>
    simp only [applyRoomOp]
    rcases roomCreate_state s a g rid with h | h
    · rw [h]; exact hInv
    · rw [h]; exact forall_roomsSet hInv (HostMem_createdRoom a (jsTrim g) rid)
  | join a rid sp =>
    simp only [applyRoomOp]
    rcases roomJoin_state s a rid sp with h | ⟨room, hget, h⟩
    · rw [h]; exact hInv
    · rw [h]
      exact forall_roomsSet hInv
        (HostMem_joinedRoom a sp (hInv room (roomsGet_mem hget)))
  | setReady a rid b =>
    simp only [applyRoomOp]
    rcases roomReady_state s a rid b with h | ⟨room, hget, _, _, h⟩
    · rw [h]; exact hInv
    · rw [h]
      exact forall_roomsSet hInv
        (HostMem_readiedRoom a b (hInv room (roomsGet_mem hget)))
  | setLock a rid b =>
    simp only [applyRoomOp]
    rcases roomLock_state s a rid b with h | ⟨room, hget, h⟩
    · rw [h]; exact hInv
    · rw [h]
      exact forall_roomsSet hInv (hInv room (roomsGet_mem hget))
  | kick a rid t =>
    simp only [applyRoomOp]
    rcases roomKick_state s a rid t with h | ⟨room, hget, hhost, htne, _, h⟩
    · rw [h]; exact hInv
    · rw [h]
      refine forall_roomsSet hInv
        (HostMem_strippedRoom (hInv room (roomsGet_mem hget)) ?_)
      rw [hhost]
      exact fun he => htne he.symm
  | transferHost a rid t =>
    simp only [applyRoomOp]
    rcases roomTransferHost_state s a rid t with h | ⟨room, hget, hmem, h⟩
    · rw [h]; exact hInv
    · rw [h]
      exact forall_roomsSet hInv hmem
  | close a rid =>
    simp only [applyRoomOp]
    rcases roomClose_state s a rid with h | ⟨room, hget, h⟩ | ⟨room, hget, hne, h⟩
    · rw [h]; exact hInv
    · rw [h]
      intro r hr
      exact hInv r (List.mem_of_mem_filter hr)
    · rw [h]
      exact forall_roomsSet hInv
        (HostMem_strippedRoom (hInv room (roomsGet_mem hget)) hne)
  | leave u =>
    simp only [applyRoomOp]
    intro r hr
    rcases List.mem_filterMap.mp hr with ⟨room, hroom, hfa⟩
    exact HostMem_leaveRoom hfa (hInv room hroom)
  | chat a rid t m n =>
    simp only [applyRoomOp]
    rcases chatSend_state s a rid t m n with h | ⟨room, hget, msg, h⟩
    · rw [h]; exact hInv
    · rw [h]
      exact forall_roomsSet hInv
        (HostMem_chattedRoom msg (hInv room (roomsGet_mem hget)))
  | sessionLockstep a rid g gn p e hh pv cv rb n =>
    simp only [applyRoomOp]
    rcases netplayStart_state s a rid g gn p e hh pv cv rb n with h | ⟨room, hget, ses, h⟩
    · rw [h]; exact hInv
    · rw [h]
      exact forall_roomsSet hInv (hInv room (roomsGet_mem hget))
  | sessionStream a rid g gn p n =>
    simp only [applyRoomOp]
    rcases streamStart_state s a rid g gn p n with h | ⟨room, hget, ses, h⟩
    · rw [h]; exact hInv
    · rw [h]
      exact forall_roomsSet hInv (hInv room (roomsGet_mem hget))

theorem readySubset_applyRoomOp (s : ServerState) (op : RoomOp)
    (hInv : ∀ r ∈ s.rooms, ReadySubset r) :
    ∀ r ∈ (applyRoomOp s op).rooms, ReadySubset r := by
  cases op with
  | create a g rid =>
    simp only [applyRoomOp]
    rcases roomCreate_state s a g rid with h | h
    · rw [h]; exact hInv
    · rw [h]; exact forall_roomsSet hInv (ReadySubset_createdRoom a (jsTrim g) rid)
  | join a rid sp =>
    simp only [applyRoomOp]
    rcases roomJoin_state s a rid sp with h | ⟨room, hget, h⟩
    · rw [h]; exact hInv
    · rw [h]
      exact forall_roomsSet hInv
        (ReadySubset_joinedRoom a sp (hInv room (roomsGet_mem hget)))
  | setReady a rid b =>
    simp only [applyRoomOp]
    rcases roomReady_state s a rid b with h | ⟨room, hget, hmem, _, h⟩
    · rw [h]; exact hInv
    · rw [h]
      exact forall_roomsSet hInv (ReadySubset_readiedRoom b hmem)
  | setLock a rid b =>
    simp only [applyRoomOp]
    rcases roomLock_state s a rid b with h | ⟨room, hget, h⟩
    · rw [h]; exact hInv
    · rw [h]
      exact forall_roomsSet hInv (hInv room (roomsGet_mem hget))
  | kick a rid t =>
    simp only [applyRoomOp]
    rcases roomKick_state s a rid t with h | ⟨room, hget, _, _, _, h⟩
    · rw [h]; exact hInv
    · rw [h]
      exact forall_roomsSet hInv (ReadySubset_strippedRoom room (jsTrim t))
  | transferHost a rid t =>
    simp only [applyRoomOp]
    rcases roomTransferHost_state s a rid t with h | ⟨room, hget, hmem, h⟩
    · rw [h]; exact hInv
    · rw [h]
      exact forall_roomsSet hInv (hInv room (roomsGet_mem hget))
  | close a rid =>
    simp only [applyRoomOp]
    rcases roomClose_state s a rid with h | ⟨room, hget, h⟩ | ⟨room, hget, hne, h⟩
    · rw [h]; exact hInv
    · rw [h]
      intro r hr
      exact hInv r (List.mem_of_mem_filter hr)
    · rw [h]
      exact forall_roomsSet hInv (ReadySubset_strippedRoom room a)
  | leave u =>
    simp only [applyRoomOp]
    intro r hr
    rcases List.mem_filterMap.mp hr with ⟨room, hroom, hfa⟩
    exact ReadySubset_leaveRoom hfa (hInv room hroom)
  | chat a rid t m n =>
    simp only [applyRoomOp]
    rcases chatSend_state s a rid t m n with h | ⟨room, hget, msg, h⟩
    · rw [h]; exact hInv
    · rw [h]
      exact forall_roomsSet hInv
        (ReadySubset_chattedRoom msg (hInv room (roomsGet_mem hget)))
  | sessionLockstep a rid g gn p e hh pv cv rb n =>
    simp only [applyRoomOp]
    rcases netplayStart_state s a rid g gn p e hh pv cv rb n with h | ⟨room, hget, ses, h⟩
    · rw [h]; exact hInv
    · rw [h]
      exact forall_roomsSet hInv (hInv room (roomsGet_mem hget))
  | sessionStream a rid g gn p n =>
    simp only [applyRoomOp]
    rcases streamStart_state s a rid g gn p n with h | ⟨room, hget, ses, h⟩
    · rw [h]; exact hInv
    · rw [h]
      exact forall_roomsSet hInv (hInv room (roomsGet_mem hget))

theorem spectReadyDisjoint_applyRoomOp (s : ServerState) (op : RoomOp)
    (hInv : ∀ r ∈ s.rooms, SpectReadyDisjoint r)
    (hNotBad : ¬ SpectatorJoinOfReady s op) :
    ∀ r ∈ (applyRoomOp s op).rooms, SpectReadyDisjoint r := by
  cases op with
  | create a g rid =>
    simp only [applyRoomOp]
    rcases roomCreate_state s a g rid with h | h
    · rw [h]; exact hInv
    · rw [h]; exact forall_roomsSet hInv (SpectReadyDisjoint_createdRoom a (jsTrim g) rid)
  | join a rid sp =>
    simp only [applyRoomOp]
    rcases roomJoin_state s a rid sp with h | ⟨room, hget, h⟩
    · rw [h]; exact hInv
    · rw [h]
      refine forall_roomsSet hInv
        (SpectReadyDisjoint_joinedRoom (hInv room (roomsGet_mem hget)) ?_)
      intro hsp hready
      apply hNotBad
      unfold SpectatorJoinOfReady
      dsimp only
      rw [hget]
      exact ⟨hsp, hready⟩
  | setReady a rid b =>
    simp only [applyRoomOp]
    rcases roomReady_state s a rid b with h | ⟨room, hget, _, hspect, h⟩
    · rw [h]; exact hInv
    · rw [h]
      exact forall_roomsSet hInv
        (SpectReadyDisjoint_readiedRoom b (hInv room (roomsGet_mem hget)) hspect)
  | setLock a rid b =>
    simp only [applyRoomOp]
    rcases roomLock_state s a rid b with h | ⟨room, hget, h⟩
    · rw [h]; exact hInv
    · rw [h]
      exact forall_roomsSet hInv (hInv room (roomsGet_mem hget))
  | kick a rid t =>
    simp only [applyRoomOp]
    rcases roomKick_state s a rid t with h | ⟨room, hget, _, _, _, h⟩
    · rw [h]; exact hInv
    · rw [h]
      exact forall_roomsSet hInv
        (SpectReadyDisjoint_strippedRoom (jsTrim t) (hInv room (roomsGet_mem hget)))
  | transferHost a rid t =>
    simp only [applyRoomOp]
    rcases roomTransferHost_state s a rid t with h | ⟨room, hget, hmem, h⟩
    · rw [h]; exact hInv
    · rw [h]
      exact forall_roomsSet hInv (hInv room (roomsGet_mem hget))
  | close a rid =>
    simp only [applyRoomOp]
    rcases roomClose_state s a rid with h | ⟨room, hget, h⟩ | ⟨room, hget, hne, h⟩
    · rw [h]; exact hInv
    · rw [h]
      intro r hr
      exact hInv r (List.mem_of_mem_filter hr)
    · rw [h]
      exact forall_roomsSet hInv
        (SpectReadyDisjoint_strippedRoom a (hInv room (roomsGet_mem hget)))
  | leave u =>
    simp only [applyRoomOp]
    intro r hr
    rcases List.mem_filterMap.mp hr with ⟨room, hroom, hfa⟩
    exact SpectReadyDisjoint_leaveRoom hfa (hInv room hroom)
  | chat a rid t m n =>
    simp only [applyRoomOp]
    rcases chatSend_state s a rid t m n with h | ⟨room, hget, msg, h⟩
    · rw [h]; exact hInv
    · rw [h]
      exact forall_roomsSet hInv
        (SpectReadyDisjoint_chattedRoom msg (hInv room (roomsGet_mem hget)))
  | sessionLockstep a rid g gn p e hh pv cv rb n =>
    simp only [applyRoomOp]
    rcases netplayStart_state s a rid g gn p e hh pv cv rb n with h | ⟨room, hget, ses, h⟩
    · rw [h]; exact hInv
    · rw [h]
      exact forall_roomsSet hInv (hInv room (roomsGet_mem hget))
  | sessionStream a rid g gn p n =>
    simp only [applyRoomOp]
    rcases streamStart_state s a rid g gn p n with h | ⟨room, hget, ses, h⟩
    · rw [h]; exact hInv
    · rw [h]
      exact forall_roomsSet hInv (hInv room (roomsGet_mem hget))

/-! ## Lemmas about the NES lockstep tick -/

theorem nesFillPhaseAux_preserved (fuel : Nat) (s : NesLockstepState) :
    (nesFillPhaseAux fuel s).remoteStateByFrame = s.remoteStateByFrame ∧
    (nesFillPhaseAux fuel s).currentFrame = s.currentFrame ∧
    (nesFillPhaseAux fuel s).simulatedFrames = s.simulatedFrames := by
  induction fuel generalizing s with
  | zero => exact ⟨rfl, rfl, rfl⟩
  | succ fuel ih =>
    unfold nesFillPhaseAux
    split
    · exact ih _
    · exact ⟨rfl, rfl, rfl⟩

/-- The fuel passed by `nesFillPhase` always lets the planning loop run to
completion: on exit the loop condition is false, exactly as for the
source's unbounded `while`. -/
theorem nesFillPhaseAux_planned (fuel : Nat) (s : NesLockstepState)
    (h : s.currentFrame + LOCKSTEP_INPUT_DELAY_FRAMES + 1 ≤ fuel + s.plannedLocalFrame) :
    (nesFillPhaseAux fuel s).currentFrame + LOCKSTEP_INPUT_DELAY_FRAMES <
      (nesFillPhaseAux fuel s).plannedLocalFrame := by
  induction fuel generalizing s with
  | zero =>
    simp only [nesFillPhaseAux]
    omega
  | succ fuel ih =>
    unfold nesFillPhaseAux
    split
    · exact ih _ (by simpa using by omega)
    · next hc => simpa using by omega

theorem nesFillPhase_planned (s : NesLockstepState) :
    (nesFillPhase s).currentFrame + LOCKSTEP_INPUT_DELAY_FRAMES <
      (nesFillPhase s).plannedLocalFrame :=
  nesFillPhaseAux_planned _ s (by omega)

theorem nesStepPhase_maps (n : Nat) (s : NesLockstepState) :
    (nesStepPhase n s).localStateByFrame = s.localStateByFrame ∧
    (nesStepPhase n s).remoteStateByFrame = s.remoteStateByFrame := by
  induction n generalizing s with
  | zero => exact ⟨rfl, rfl⟩
  | succ n ih =>
    unfold nesStepPhase
    rcases hl : lookupFrame s.localStateByFrame s.currentFrame with _ | lf
    · exact ⟨rfl, rfl⟩
    · rcases hr : lookupFrame s.remoteStateByFrame s.currentFrame with _ | rf
      · exact ⟨rfl, rfl⟩
      · exact ih _

theorem nesStepPhase_simulated (n : Nat) (s : NesLockstepState) :
    ∀ f ∈ (nesStepPhase n s).simulatedFrames,
      f ∈ s.simulatedFrames ∨
        ((lookupFrame s.localStateByFrame f).isSome ∧
         (lookupFrame s.remoteStateByFrame f).isSome) := by
  induction n generalizing s with
  | zero => exact fun f hf => Or.inl hf
  | succ n ih =>
    intro f hf
    unfold nesStepPhase at hf
    rcases hl : lookupFrame s.localStateByFrame s.currentFrame with _ | lf
    · rw [hl] at hf; exact Or.inl hf
    · rcases hr : lookupFrame s.remoteStateByFrame s.currentFrame with _ | rf
      · rw [hl, hr] at hf; exact Or.inl hf
      · rw [hl, hr] at hf
        rcases ih _ f hf with hmem | hsome
        · rcases List.mem_append.mp hmem with hmem' | hmem'
          · exact Or.inl hmem'
          · simp only [List.mem_singleton] at hmem'
            subst hmem'
            exact Or.inr ⟨by rw [hl]; rfl, by rw [hr]; rfl⟩
        · exact Or.inr hsome

theorem nesStepPhase_stuck (n : Nat) (s : NesLockstepState)
    (h : lookupFrame s.localStateByFrame s.currentFrame = none ∨
         lookupFrame s.remoteStateByFrame s.currentFrame = none) :
    nesStepPhase n s = s := by
  cases n with
  | zero => rfl
  | succ n =>
    rcases h with hl | hr
    · unfold nesStepPhase
      rw [hl]
    · rcases hl : lookupFrame s.localStateByFrame s.currentFrame with _ | lf
      · unfold nesStepPhase
        rw [hl]
      · unfold nesStepPhase
        rw [hl, hr]

theorem nesPrune_preserved (s : NesLockstepState) :
    (nesPrune s).currentFrame = s.currentFrame ∧
    (nesPrune s).simulatedFrames = s.simulatedFrames := by
  unfold nesPrune
  split
  · exact ⟨rfl, rfl⟩
  · exact ⟨rfl, rfl⟩

/-! ## Further lemmas about the registry primitives -/

theorem find?_map_key (room' : RoomRecord) :
    ∀ (rooms : List RoomRecord) (room : RoomRecord),
      List.find? (fun r => r.roomId == room'.roomId) rooms = some room →
      List.find? (fun r => r.roomId == room'.roomId)
        (rooms.map (fun r => if r.roomId == room'.roomId then room' else r)) =
        some room' := by
  intro rooms
  induction rooms with
  | nil => intro room h; simp at h
  | cons r rs ih =>
    intro room h
    simp only [List.map_cons]
    by_cases hr : (r.roomId == room'.roomId) = true
    · rw [if_pos hr]
      exact List.find?_cons_of_pos _ (by simp)
    · rw [if_neg hr]
      simp only [Bool.not_eq_true] at hr
      simp only [List.find?_cons, hr] at h ⊢
      exact ih room h

theorem roomsGet_roomsSet {rooms : List RoomRecord} {room room' : RoomRecord}
    (hget : roomsGet rooms room'.roomId = some room) :
    roomsGet (roomsSet rooms room') room'.roomId = some room' := by
  have hmem := List.mem_of_find?_eq_some hget
  have hkey : room.roomId = room'.roomId := roomsGet_roomId hget
  unfold roomsSet
  rw [if_pos (List.any_eq_true.mpr ⟨room, hmem, by simp [hkey]⟩)]
  exact find?_map_key room' rooms room hget

theorem invitesGet_filter_ne (invites : List InviteRecord) (iid : String) :
    invitesGet (invites.filter (fun i => decide (i.inviteId ≠ iid))) iid = none := by
  unfold invitesGet
  refine List.find?_eq_none.mpr ?_
  intro i hi
  have := (List.mem_filter.mp hi).2
  simp only [decide_eq_true_eq] at this
  simpa using this

theorem inviteRespond_invites_target (s : ServerState) (acc : Bool)
    (inviteIdRaw : String) (inv : InviteRecord)
    (hinv : invitesGet s.invites (jsTrim inviteIdRaw) = some inv) :
    (inviteRespond s inv.toUserId inviteIdRaw acc).2.invites =
      s.invites.filter (fun i => decide (i.inviteId ≠ jsTrim inviteIdRaw)) := by
  unfold inviteRespond
  dsimp only
  rw [hinv]
  dsimp only
  rw [if_neg (by simp : ¬ inv.toUserId ≠ inv.toUserId)]
  cases acc with
  | false => rw [if_pos rfl]
  | true =>
    rw [if_neg (by simp)]
    cases roomsGet s.rooms inv.roomId with
    | none => rfl
    | some room =>
      dsimp only
      split_ifs <;> rfl

theorem updateFirst_eq_self {p : α → Bool} {f : α → α} :
    ∀ {l : List α} {x : α}, l.find? p = some x → f x = x → updateFirst p f l = l := by
  intro l
  induction l with
  | nil => intro x h _; simp at h
  | cons y ys ih =>
    intro x h hfx
    unfold updateFirst
    by_cases hy : p y = true
    · rw [List.find?_cons_of_pos _ hy] at h
      simp only [Option.some.injEq] at h
      subst h
      rw [if_pos hy, hfx]
    · rw [List.find?_cons_of_neg _ hy] at h
      rw [if_neg hy, ih h hfx]

theorem find?_updateFirst_self {p : α → Bool} {f : α → α}
    (hp : ∀ y, p (f y) = p y) :
    ∀ {l : List α} {x : α}, l.find? p = some x →
      (updateFirst p f l).find? p = some (f x) := by
  intro l
  induction l with
  | nil => intro x h; simp at h
  | cons y ys ih =>
    intro x h
    unfold updateFirst
    by_cases hy : p y = true
    · rw [List.find?_cons_of_pos _ hy] at h
      simp only [Option.some.injEq] at h
      subst h
      rw [if_pos hy]
      exact List.find?_cons_of_pos _ (by rw [hp]; exact hy)
    · rw [List.find?_cons_of_neg _ hy] at h
      rw [if_neg hy, List.find?_cons_of_neg _ hy]
      exact ih h

theorem find?_updateFirst_other {p q : α → Bool} {f : α → α}
    (hq : ∀ y, q (f y) = q y) :
    ∀ {l : List α} {x : α}, l.find? q = some x →
      (updateFirst p f l).find? q = some x ∨
      (updateFirst p f l).find? q = some (f x) := by
  intro l
  induction l with
  | nil => intro x h; simp at h
  | cons y ys ih =>
    intro x h
    unfold updateFirst
    by_cases hpy : p y = true
    · rw [if_pos hpy]
      by_cases hqy : q y = true
      · rw [List.find?_cons_of_pos _ hqy] at h
        simp only [Option.some.injEq] at h
        subst h
        exact Or.inr (List.find?_cons_of_pos _ (by rw [hq]; exact hqy))
      · rw [List.find?_cons_of_neg _ hqy] at h
        rw [List.find?_cons_of_neg _ (by rw [hq]; exact hqy)]
        exact Or.inl h
    · rw [if_neg hpy]
      by_cases hqy : q y = true
      · rw [List.find?_cons_of_pos _ hqy] at h
        rw [List.find?_cons_of_pos _ hqy]
        exact Or.inl h
      · rw [List.find?_cons_of_neg _ hqy] at h
        rw [List.find?_cons_of_neg _ hqy]
        exact ih h

theorem chattedRoom_chat_le (room : RoomRecord) (m : ChatMessage) :
    (chattedRoom room m).chat.length ≤ 200 := by
  unfold chattedRoom
  dsimp only
  split
  · next hgt =>
    rw [List.length_drop]
    omega
  · next hle => omega

theorem chattedRoom_mem (room : RoomRecord) (m : ChatMessage) :
    m ∈ (chattedRoom room m).chat := by
  unfold chattedRoom
  dsimp only
  split
  · next hgt =>
    rw [List.drop_append_of_le_length
      (by simp only [List.length_append, List.length_singleton] at hgt ⊢; omega)]
    exact List.mem_append_right _ (by simp)
  · exact List.mem_append_right _ (by simp)

theorem nesFillPhase_preserved (s : NesLockstepState) :
    (nesFillPhase s).remoteStateByFrame = s.remoteStateByFrame ∧
    (nesFillPhase s).currentFrame = s.currentFrame ∧
    (nesFillPhase s).simulatedFrames = s.simulatedFrames :=
  nesFillPhaseAux_preserved _ s

/-! ## The claims -/

/-- C1 (amended): in the NES lockstep loop of `App.tsx` the gating claim
holds: a frame index enters the simulation trace of a tick only when both
the local bitmask (as planned during that tick's fill phase) and the
remote bitmask for it are present in the buffers, and when either bitmask
for `currentFrame` is missing the tick advances neither the frame counter
nor the simulation trace.  (The SNES `applyStates` loop violates the
original claim, see the counterexample.) -/
theorem c1_nes_lockstep_gating (s : NesLockstepState) :
    (∀ f ∈ (nesLockstepTick s).simulatedFrames,
      f ∈ s.simulatedFrames ∨
        ((lookupFrame (nesFillPhase s).localStateByFrame f).isSome ∧
         (lookupFrame s.remoteStateByFrame f).isSome)) ∧
    ((lookupFrame (nesFillPhase s).localStateByFrame s.currentFrame = none ∨
      lookupFrame s.remoteStateByFrame s.currentFrame = none) →
      (nesLockstepTick s).currentFrame = s.currentFrame ∧
      (nesLockstepTick s).simulatedFrames = s.simulatedFrames) := by
  constructor
  · intro f hf
    unfold nesLockstepTick at hf
    rw [(nesPrune_preserved _).2] at hf
    rcases nesStepPhase_simulated 2 (nesFillPhase s) f hf with hmem | hsome
    · rw [(nesFillPhase_preserved s).2.2] at hmem
      exact Or.inl hmem
    · refine Or.inr ⟨hsome.1, ?_⟩
      rw [← (nesFillPhase_preserved s).1]
      exact hsome.2
  · intro hnone
    have hstuck : nesStepPhase 2 (nesFillPhase s) = nesFillPhase s := by
      apply nesStepPhase_stuck
      rcases hnone with hl | hr
      · left
        rw [(nesFillPhase_preserved s).2.1]
        exact hl
      · right
        rw [(nesFillPhase_preserved s).2.1, (nesFillPhase_preserved s).1]
        exact hr
    unfold nesLockstepTick
    rw [hstuck]
    exact ⟨by rw [(nesPrune_preserved _).1, (nesFillPhase_preserved s).2.1],
           by rw [(nesPrune_preserved _).2, (nesFillPhase_preserved s).2.2]⟩

/-- C1 counterexample: the SNES `applyStates` lockstep loop advances and
feeds inputs for frame 0 although the remote bitmask for frame 0 was
never received — the claimed gating does not hold for the SNES view. -/
theorem c1_counterexample :
    lookupFrame c1SnesState.remoteStateByFrame c1SnesState.currentFrame = none ∧
    (snesApplyStatesTick c1SnesState).currentFrame = c1SnesState.currentFrame + 1 ∧
    (snesApplyStatesTick c1SnesState).appliedInputs =
      c1SnesState.appliedInputs ++ [(c1SnesState.currentFrame, 0, 0)] := by decide

/-- Witness for C1: both parts of the gating theorem applied to concrete
states (remote bitmask present for frame 0, and the initial state with no
remote bitmask at all). -/
theorem c1_witness :
    (0 ∈ (nesLockstepTick c1WitnessState).simulatedFrames) ∧
    (0 ∈ c1WitnessState.simulatedFrames ∨
      ((lookupFrame (nesFillPhase c1WitnessState).localStateByFrame 0).isSome ∧
       (lookupFrame c1WitnessState.remoteStateByFrame 0).isSome)) ∧
    ((nesLockstepTick nesLockstepInit).currentFrame = nesLockstepInit.currentFrame ∧
     (nesLockstepTick nesLockstepInit).simulatedFrames = nesLockstepInit.simulatedFrames) :=
  ⟨by decide, (c1_nes_lockstep_gating c1WitnessState).1 0 (by decide),
   (c1_nes_lockstep_gating nesLockstepInit).2 (Or.inr (by decide))⟩

/-- C2 (amended): after every mutating room operation the ready set is a
subset of the member list; the spectator/ready disjointness is preserved
by every mutating operation except a `room:join` with `spectator:true` by
an actor currently in the ready set (which leaves the actor in both
sets — see the counterexample). -/
theorem c2_ready_invariants (s : ServerState) (op : RoomOp)
    (hInv : ∀ r ∈ s.rooms, ReadySubset r ∧ SpectReadyDisjoint r) :
    (∀ r ∈ (applyRoomOp s op).rooms, ReadySubset r) ∧
    (¬ SpectatorJoinOfReady s op →
      ∀ r ∈ (applyRoomOp s op).rooms, SpectReadyDisjoint r) :=
  ⟨readySubset_applyRoomOp s op (fun r hr => (hInv r hr).1),
   fun hnb => spectReadyDisjoint_applyRoomOp s op (fun r hr => (hInv r hr).2) hnb⟩

/-- C2 counterexample: create, join as player, toggle ready, re-join as
spectator — the resulting room has `b` in both the spectator list and the
ready set, so `spectators ∩ readyByUserId = ∅` is not an invariant. -/
theorem c2_counterexample :
    roomsGet c2State.rooms "R1" = some c2Room ∧
    "b" ∈ c2Room.spectators ∧ "b" ∈ c2Room.readyByUserId := by decide

/-- Witness for C2: the amended theorem applied to a concrete one-room
state and a concrete (non-spectator) join. -/
theorem c2_witness :
    (∀ r ∈ c7State.rooms, ReadySubset r ∧ SpectReadyDisjoint r) ∧
    (∀ r ∈ (applyRoomOp c7State (.join "c" "R1" false)).rooms, ReadySubset r) ∧
    (∀ r ∈ (applyRoomOp c7State (.join "c" "R1" false)).rooms, SpectReadyDisjoint r) :=
  ⟨by decide,
   (c2_ready_invariants c7State (.join "c" "R1" false) (by decide)).1,
   (c2_ready_invariants c7State (.join "c" "R1" false) (by decide)).2
     (by simp [SpectatorJoinOfReady])⟩

/-- C4 (amended): for a room whose active session is in `stream` mode,
every `room:join` by a non-member who does not ask to join as spectator
fails — regardless of how many active players the room currently holds
("Room is locked" when the room is also locked, otherwise "Streaming room
is full") — and leaves the state unchanged. -/
theorem c4_stream_join_always_fails (s : ServerState) (actorId ridRaw : String)
    (room : RoomRecord)
    (hget : roomsGet s.rooms (normId ridRaw) = some room)
    (hstream : sessionIsStream room.session = true)
    (hmem : actorId ∉ room.members) :
    (roomJoin s actorId ridRaw false).1 =
      .error (if room.locked then "Room is locked" else "Streaming room is full") ∧
    (roomJoin s actorId ridRaw false).2 = s := by
  unfold roomJoin
  dsimp only
  rw [hget]
  dsimp only
  by_cases hlock : room.locked = true
  · rw [if_pos ⟨hlock, hmem⟩, if_pos hlock]
    exact ⟨rfl, rfl⟩
  · rw [if_neg (fun hc => hlock hc.1), if_pos ⟨hstream, hmem, rfl⟩, if_neg hlock]
    exact ⟨rfl, rfl⟩

/-- C4 counterexample: `c4State` holds a live stream-mode room with a
single active player (fewer than two), yet `room:join` still fails with
"Streaming room is full" — the claim's "join succeeds when fewer than two
active players" is false. -/
theorem c4_counterexample :
    roomsGet c4State.rooms "ROOM" = some c4Room ∧
    sessionIsStream c4Room.session = true ∧
    "b" ∉ c4Room.members ∧
    (c4Room.members.filter (fun uid => decide (uid ∉ c4Room.spectators))).length = 1 ∧
    resultError? (roomJoin c4State "b" "ROOM" false).1 =
      some "Streaming room is full" := by decide

/-- Witness for C4: the amended theorem applied at `c4State`. -/
theorem c4_witness :
    roomsGet c4State.rooms (normId "ROOM") = some c4Room ∧
    (roomJoin c4State "x" "ROOM" false).1 = .error "Streaming room is full" ∧
    (roomJoin c4State "x" "ROOM" false).2 = c4State := by
  have h := c4_stream_join_always_fails c4State "x" "ROOM" c4Room
    (by decide) (by decide) (by decide)
  exact ⟨by decide, by simpa using h.1, h.2⟩

/-- C5: with an existing room, the acting host a member and a non-empty
game id, `stream:start` succeeds exactly when the room holds exactly two
non-spectator members, and otherwise fails with the capacity message. -/
theorem c5_stream_start_iff (s : ServerState) (actorId ridRaw g gn p n : String)
    (room : RoomRecord)
    (hget : roomsGet s.rooms (normId ridRaw) = some room)
    (hhost : room.hostUserId = actorId)
    (hmem : actorId ∈ room.members)
    (hg : jsTrim g ≠ "") :
    (resultOk (streamStart s actorId ridRaw g gn p n).1 = true ↔
      (room.members.filter (fun uid => decide (uid ∉ room.spectators))).length = 2) ∧
    ((room.members.filter (fun uid => decide (uid ∉ room.spectators))).length ≠ 2 →
      (streamStart s actorId ridRaw g gn p n).1 =
        .error "Streaming mode requires exactly 2 members") := by
  unfold streamStart
  dsimp only
  rw [hget]
  dsimp only
  rw [if_neg (by simp [hhost]), if_neg (by simp [hmem]), if_neg hg]
  by_cases hlen :
    (room.members.filter (fun uid => decide (uid ∉ room.spectators))).length ≠ 2
  · rw [if_pos hlen]
    refine ⟨⟨fun hok => absurd hok (by simp [resultOk]), fun h2 => absurd h2 hlen⟩,
      fun _ => rfl⟩
  · rw [if_neg hlen]
    exact ⟨⟨fun _ => not_not.mp hlen, fun _ => by simp [resultOk]⟩,
      fun hne => absurd (not_not.mp hlen) hne⟩

/-- Witness for C5: the theorem applied to a concrete room with exactly
two active players. -/
theorem c5_witness :
    roomsGet c5State.rooms (normId "ROOM") = some c5Room ∧
    (resultOk (streamStart c5State "h" "ROOM" "g" "" "" "t0").1 = true ↔
      (c5Room.members.filter (fun uid => decide (uid ∉ c5Room.spectators))).length = 2) :=
  ⟨by decide,
   (c5_stream_start_iff c5State "h" "ROOM" "g" "" "" "t0" c5Room
     (by decide) (by decide) (by decide) (by decide)).1⟩

/-- C6: the host user id is a member of its room, and every mutating room
operation (create, join, ready, lock, kick, host transfer, close, implicit
leave with host failover, chat, session start) preserves this for every
room in the registry. -/
theorem c6_host_always_member (s : ServerState) (op : RoomOp)
    (hInv : ∀ r ∈ s.rooms, HostMem r) :
    ∀ r ∈ (applyRoomOp s op).rooms, HostMem r :=
  hostMem_applyRoomOp s op hInv

/-- Witness for C6: the theorem applied to a concrete two-member room
whose host disconnects (host failover to the remaining member). -/
theorem c6_witness :
    (∀ r ∈ c5State.rooms, HostMem r) ∧
    (∀ r ∈ (applyRoomOp c5State (.leave "h")).rooms, HostMem r) :=
  ⟨by decide, c6_host_always_member c5State (.leave "h") (by decide)⟩

/-- C9: a `room:close` naming a missing room id answers `ok` with
`closed:false`, while every other room-scoped request type answers the
error "Room not found" for the same missing room. -/
theorem c9_close_missing_room (s : ServerState)
    (actorId ridRaw targetRaw textRaw msgId now g gn p e hsh pv cv rb : String)
    (sp b : Bool) (fr st : Option Int) (ps : Option Bool) (sig : Bool)
    (hnone : roomsGet s.rooms (normId ridRaw) = none)
    (hne : normId ridRaw ≠ "") :
    roomClose s actorId ridRaw = (.ok false, s) ∧
    roomJoin s actorId ridRaw sp = (.error "Room not found", s) ∧
    roomState s actorId ridRaw = .error "Room not found" ∧
    chatHistory s actorId ridRaw = .error "Room not found" ∧
    chatSend s actorId ridRaw textRaw msgId now = (.error "Room not found", s) ∧
    roomReady s actorId ridRaw b = (.error "Room not found", s) ∧
    roomLock s actorId ridRaw b = (.error "Room not found", s) ∧
    roomKick s actorId ridRaw targetRaw = (.error "Room not found", s) ∧
    roomTransferHost s actorId ridRaw targetRaw = (.error "Room not found", s) ∧
    netplayStart s actorId ridRaw g gn p e hsh pv cv rb now =
      (.error "Room not found", s) ∧
    streamStart s actorId ridRaw g gn p now = (.error "Room not found", s) ∧
    netplayInput s actorId ridRaw fr st = .error "Room not found" ∧
    streamSignal s actorId ridRaw targetRaw sig = .error "Room not found" ∧
    streamInput s actorId ridRaw st = .error "Room not found" ∧
    roomPause s actorId ridRaw ps = .error "Room not found" := by
  refine ⟨?_, ?_, ?_, ?_, ?_, ?_, ?_, ?_, ?_, ?_, ?_, ?_, ?_, ?_, ?_⟩
  · unfold roomClose
    dsimp only
    rw [if_neg hne, hnone]
  · unfold roomJoin
    dsimp only
    rw [hnone]
  · unfold roomState
    rw [hnone]
  · unfold chatHistory
    rw [hnone]
  · unfold chatSend
    dsimp only
    rw [hnone]
  · unfold roomReady
    rw [hnone]
  · unfold roomLock
    rw [hnone]
  · unfold roomKick
    dsimp only
    rw [hnone]
  · unfold roomTransferHost
    dsimp only
    rw [hnone]
  · unfold netplayStart
    dsimp only
    rw [hnone]
  · unfold streamStart
    dsimp only
    rw [hnone]
  · unfold netplayInput
    rw [hnone]
  · unfold streamSignal
    dsimp only
    rw [hnone]
  · unfold streamInput
    rw [hnone]
  · unfold roomPause
    rw [hnone]

/-- Witness for C9: the theorem applied to the empty registry and a
missing room id. -/
theorem c9_witness :
    roomsGet emptyState.rooms (normId "NOPE") = none ∧
    normId "NOPE" ≠ "" ∧
    roomClose emptyState "a" "NOPE" = (.ok false, emptyState) ∧
    roomJoin emptyState "a" "NOPE" false = (.error "Room not found", emptyState) := by
  have h := c9_close_missing_room emptyState "a" "NOPE" "t" "x" "m" "n" "g" "" "" "e"
    "h" "1" "c" "r" false false none none none false (by decide) (by decide)
  exact ⟨by decide, by decide, h.1, h.2.1⟩

theorem inviteRespond_missing (s' : ServerState) (actorId idRaw : String) (b : Bool)
    (h : invitesGet s'.invites (jsTrim idRaw) = none) :
    inviteRespond s' actorId idRaw b = (.error "Invite not found", s') := by
  unfold inviteRespond
  dsimp only
  rw [h]

/-- C10: an `invite:respond` by a user other than the invite's addressee
fails with "Invite does not belong to user" and leaves the whole state
(the invite registry included) unchanged; the true addressee can still
respond, which consumes the invite so that any further respond fails with
"Invite not found". -/
theorem c10_invite_wrong_target (s : ServerState)
    (actorId other inviteIdRaw : String) (accept accept2 b2 : Bool)
    (inv : InviteRecord)
    (hinv : invitesGet s.invites (jsTrim inviteIdRaw) = some inv)
    (hne : inv.toUserId ≠ actorId) :
    inviteRespond s actorId inviteIdRaw accept =
      (.error "Invite does not belong to user", s) ∧
    invitesGet (inviteRespond s inv.toUserId inviteIdRaw accept2).2.invites
      (jsTrim inviteIdRaw) = none ∧
    (inviteRespond (inviteRespond s inv.toUserId inviteIdRaw accept2).2 other
      inviteIdRaw b2).1 = .error "Invite not found" ∧
    (accept2 = false →
      (inviteRespond s inv.toUserId inviteIdRaw accept2).1 = .ok .declined) := by
  have hinv2 := inviteRespond_invites_target s accept2 inviteIdRaw inv hinv
  refine ⟨?_, ?_, ?_, ?_⟩
  · unfold inviteRespond
    dsimp only
    rw [hinv]
    dsimp only
    rw [if_pos hne]
  · rw [hinv2]
    exact invitesGet_filter_ne _ _
  · have hn : invitesGet (inviteRespond s inv.toUserId inviteIdRaw accept2).2.invites
        (jsTrim inviteIdRaw) = none := by
      rw [hinv2]
      exact invitesGet_filter_ne _ _
    rw [inviteRespond_missing _ other inviteIdRaw b2 hn]
  · intro h2
    subst h2
    unfold inviteRespond
    dsimp only
    rw [hinv]
    dsimp only
    rw [if_neg (by simp : ¬ inv.toUserId ≠ inv.toUserId), if_pos rfl]

/-- C3 (amended): the `room:join` path and the invite-accept path agree
on the lock rule but not on stream capacity: joining (as non-spectator)
is refused for every non-member whenever the session mode is `stream`,
with the lock checked first, while accepting an invite is refused only
when the room also already holds at least two members (spectators
included), with the capacity checked before the lock.  The two decisions
coincide exactly when the room is not in stream mode, or the actor is
already a member, or exactly one of "the room is locked" and "the room
holds at least two members" is true; in the remaining cases (stream-mode
room, non-member actor, with lock and two-member threshold both holding
or both failing) the decisions differ. -/
theorem c3_admission_conditions (s : ServerState)
    (actorId ridRaw inviteIdRaw : String) (room : RoomRecord) (inv : InviteRecord)
    (hget : roomsGet s.rooms (normId ridRaw) = some room)
    (hinv : invitesGet s.invites (jsTrim inviteIdRaw) = some inv)
    (hto : inv.toUserId = actorId)
    (hrm : inv.roomId = normId ridRaw) :
    admitClassify (roomJoin s actorId ridRaw false).1 =
      (if room.locked ∧ actorId ∉ room.members then .lockedOut
       else if sessionIsStream room.session ∧ actorId ∉ room.members then .fullOut
       else .admitted) ∧
    admitClassify (inviteRespond s actorId inviteIdRaw true).1 =
      (if sessionIsStream room.session ∧ actorId ∉ room.members ∧
          2 ≤ room.members.length then .fullOut
       else if room.locked ∧ actorId ∉ room.members then .lockedOut
       else .admitted) ∧
    (admitClassify (roomJoin s actorId ridRaw false).1 =
        admitClassify (inviteRespond s actorId inviteIdRaw true).1 ↔
      (¬ (sessionIsStream room.session ∧ actorId ∉ room.members) ∨
       ¬ ((room.locked = true) ↔ 2 ≤ room.members.length))) := by
  have hj : admitClassify (roomJoin s actorId ridRaw false).1 =
      (if room.locked ∧ actorId ∉ room.members then .lockedOut
       else if sessionIsStream room.session ∧ actorId ∉ room.members then .fullOut
       else .admitted) := by
    unfold roomJoin
    dsimp only
    rw [hget]
    dsimp only
    by_cases h1 : room.locked = true ∧ actorId ∉ room.members
    · rw [if_pos h1, if_pos h1]
      rfl
    · rw [if_neg h1, if_neg h1]
      by_cases h2 : sessionIsStream room.session = true ∧ actorId ∉ room.members
      · rw [if_pos (⟨h2.1, h2.2, rfl⟩ :
          sessionIsStream room.session = true ∧ actorId ∉ room.members ∧
            (false = false)), if_pos h2]
        rfl
      · rw [if_neg (fun hc => h2 ⟨hc.1, hc.2.1⟩), if_neg h2]
        rfl
  have ha : admitClassify (inviteRespond s actorId inviteIdRaw true).1 =
      (if sessionIsStream room.session ∧ actorId ∉ room.members ∧
          2 ≤ room.members.length then .fullOut
       else if room.locked ∧ actorId ∉ room.members then .lockedOut
       else .admitted) := by
    unfold inviteRespond
    dsimp only
    rw [hinv]
    dsimp only
    rw [if_neg (by simp [hto] : ¬ inv.toUserId ≠ actorId),
      if_neg (by simp : ¬ (true = false))]
    rw [hrm, hget]
    dsimp only
    by_cases h1 : sessionIsStream room.session = true ∧ actorId ∉ room.members ∧
        2 ≤ room.members.length
    · rw [if_pos h1, if_pos h1]
      rfl
    · rw [if_neg h1, if_neg h1]
      by_cases h2 : room.locked = true ∧ actorId ∉ room.members
      · rw [if_pos h2, if_pos h2]
        rfl
      · rw [if_neg h2, if_neg h2]
        rfl
  refine ⟨hj, ha, ?_⟩
  rw [hj, ha]
  by_cases hS : sessionIsStream room.session = true ∧ actorId ∉ room.members
  · by_cases hL : room.locked = true
    · by_cases hC : 2 ≤ room.members.length
      · rw [if_pos ⟨hL, hS.2⟩, if_pos ⟨hS.1, hS.2, hC⟩]
        exact iff_of_false (by simp)
          (fun h => h.elim (fun hnS => hnS hS) (fun hnI => hnI (iff_of_true hL hC)))
      · rw [if_pos ⟨hL, hS.2⟩, if_neg (fun hc => hC hc.2.2), if_pos ⟨hL, hS.2⟩]
        exact iff_of_true rfl (Or.inr (fun hiff => hC (hiff.mp hL)))
    · by_cases hC : 2 ≤ room.members.length
      · rw [if_neg (fun hc => hL hc.1), if_pos hS, if_pos ⟨hS.1, hS.2, hC⟩]
        exact iff_of_true rfl (Or.inr (fun hiff => hL (hiff.mpr hC)))
      · rw [if_neg (fun hc => hL hc.1), if_pos hS, if_neg (fun hc => hC hc.2.2),
          if_neg (fun hc => hL hc.1)]
        exact iff_of_false (by simp)
          (fun h => h.elim (fun hnS => hnS hS) (fun hnI => hnI (iff_of_false hL hC)))
  · have hS3 : ¬ (sessionIsStream room.session = true ∧ actorId ∉ room.members ∧
        2 ≤ room.members.length) := fun hc => hS ⟨hc.1, hc.2.1⟩
    rw [if_neg hS3]
    by_cases hL : room.locked = true ∧ actorId ∉ room.members
    · rw [if_pos hL, if_pos hL]
      exact iff_of_true rfl (Or.inl hS)
    · rw [if_neg hL, if_neg hS, if_neg hL]
      exact iff_of_true rfl (Or.inl hS)

/-- C3 counterexample: on a live stream-mode room with one member the two
paths disagree — `room:join` refuses `b` as "Streaming room is full"
while accepting the invite admits `b`. -/
theorem c3_counterexample :
    admitClassify (roomJoin c3State "b" "ROOM" false).1 = .fullOut ∧
    admitClassify (inviteRespond c3State "b" "I1" true).1 = .admitted ∧
    AdmitOutcome.fullOut ≠ AdmitOutcome.admitted := by decide

/-- Witness for C3: the amended theorem applied to the concrete
stream-room state with a pending invite. -/
theorem c3_witness :
    roomsGet c3State.rooms (normId "ROOM") = some c4Room ∧
    admitClassify (roomJoin c3State "b" "ROOM" false).1 =
      (if c4Room.locked ∧ "b" ∉ c4Room.members then .lockedOut
       else if sessionIsStream c4Room.session ∧ "b" ∉ c4Room.members then .fullOut
       else .admitted) ∧
    admitClassify (inviteRespond c3State "b" "I1" true).1 =
      (if sessionIsStream c4Room.session ∧ "b" ∉ c4Room.members ∧
          2 ≤ c4Room.members.length then .fullOut
       else if c4Room.locked ∧ "b" ∉ c4Room.members then .lockedOut
       else .admitted) ∧
    (admitClassify (roomJoin c3State "b" "ROOM" false).1 =
        admitClassify (inviteRespond c3State "b" "I1" true).1 ↔
      (¬ (sessionIsStream c4Room.session ∧ "b" ∉ c4Room.members) ∨
       ¬ ((c4Room.locked = true) ↔ 2 ≤ c4Room.members.length))) := by
  have h := c3_admission_conditions c3State "b" "ROOM" "I1" c4Room c3Invite
    (by decide) (by decide) (by decide) (by decide)
  exact ⟨by decide, h.1, h.2.1, h.2.2⟩

/-- C7 (amended): a successful `room:chat:send` stores and broadcasts a
message whose text is the sent text whitespace-trimmed and then truncated
to at most 400 characters; the room's chat log holds at most 200 entries,
and a chat history query on the resulting state returns the most recent
at-most-100 entries. -/
theorem c7_chat_caps (s : ServerState) (actorId ridRaw textRaw msgId now : String)
    (room : RoomRecord)
    (hget : roomsGet s.rooms (normId ridRaw) = some room)
    (hmem : actorId ∈ room.members)
    (htext : jsTrim textRaw ≠ "") :
    ∃ msg, resultVal? (chatSend s actorId ridRaw textRaw msgId now).1 = some msg ∧
      msg.text = String.mk ((jsTrim textRaw).data.take 400) ∧
      msg.text.length ≤ 400 ∧
      ∃ room', roomsGet (chatSend s actorId ridRaw textRaw msgId now).2.rooms
          (normId ridRaw) = some room' ∧
        msg ∈ room'.chat ∧
        room'.chat.length ≤ 200 ∧
        resultVal? (chatHistory (chatSend s actorId ridRaw textRaw msgId now).2
            actorId ridRaw) =
          some (room'.chat.drop (room'.chat.length - 100)) ∧
        (room'.chat.drop (room'.chat.length - 100)).length ≤ 100 := by
  have heq : chatSend s actorId ridRaw textRaw msgId now =
      (.ok (chatMessageOf s actorId room textRaw msgId now),
       { s with rooms := roomsSet s.rooms (chattedRoom room (chatMessageOf s actorId room textRaw msgId now)) }) := by
    unfold chatSend chatMessageOf
    dsimp only
    rw [hget]
    dsimp only
    rw [if_neg (by simp [hmem]), if_neg htext]
  rw [heq]
  have hrid : (chattedRoom room (chatMessageOf s actorId room textRaw msgId now)).roomId
      = normId ridRaw := by
    have h := roomsGet_roomId hget
    exact h
  have hget2 : roomsGet
      (roomsSet s.rooms (chattedRoom room (chatMessageOf s actorId room textRaw msgId now)))
      (normId ridRaw) =
      some (chattedRoom room (chatMessageOf s actorId room textRaw msgId now)) := by
    have hgetK : roomsGet s.rooms
        (chattedRoom room (chatMessageOf s actorId room textRaw msgId now)).roomId =
        some room := by rw [hrid]; exact hget
    have h := roomsGet_roomsSet hgetK
    rw [hrid] at h
    exact h
  refine ⟨chatMessageOf s actorId room textRaw msgId now, rfl, rfl,
    List.length_take_le _ _,
    chattedRoom room (chatMessageOf s actorId room textRaw msgId now), hget2,
    chattedRoom_mem _ _, chattedRoom_chat_le _ _, ?_, ?_⟩
  · unfold chatHistory
    dsimp only
    rw [hget2]
    dsimp only
    rw [if_neg (show ¬ actorId ∉
      (chattedRoom room (chatMessageOf s actorId room textRaw msgId now)).members
      from fun hno => hno hmem)]
    rfl
  · rw [List.length_drop]
    omega

/-- C7 counterexample: the stored chat text is the *trimmed* sent text:
for the sent text `" hi"` the stored text `"hi"` is not a truncation of
the sent text to any length. -/
theorem c7_counterexample :
    resultVal? (chatSend c7State "a" "R1" " hi" "m1" "t1").1 =
      some { id := "m1", roomId := "R1", fromUserId := "a",
             fromDisplayName := "Player", text := "hi", createdAt := "t1" } ∧
    (∀ n : Nat, String.mk (" hi".data.take n) ≠ "hi") := by
  constructor
  · decide
  · intro n
    match n with
    | 0 => decide
    | 1 => decide
    | 2 => decide
    | (k + 3) =>
      have h3 : " hi".data = [' ', 'h', 'i'] := rfl
      rw [h3, List.take_of_length_le (by simp)]
      decide

/-- Witness for C7: the amended theorem applied to a concrete room and
message. -/
theorem c7_witness :
    roomsGet c7State.rooms (normId "R1") = some c7Room ∧
    "a" ∈ c7Room.members ∧ jsTrim "hello" ≠ "" ∧
    (∃ msg, resultVal? (chatSend c7State "a" "R1" "hello" "m1" "t1").1 = some msg ∧
      msg.text = String.mk ((jsTrim "hello").data.take 400) ∧
      msg.text.length ≤ 400 ∧
      ∃ room', roomsGet (chatSend c7State "a" "R1" "hello" "m1" "t1").2.rooms
          (normId "R1") = some room' ∧
        msg ∈ room'.chat ∧
        room'.chat.length ≤ 200 ∧
        resultVal? (chatHistory (chatSend c7State "a" "R1" "hello" "m1" "t1").2
            "a" "R1") = some (room'.chat.drop (room'.chat.length - 100)) ∧
        (room'.chat.drop (room'.chat.length - 100)).length ≤ 100) :=
  ⟨by decide, by decide, by decide,
   c7_chat_caps c7State "a" "R1" "hello" "m1" "t1" c7Room
     (by decide) (by decide) (by decide)⟩

theorem addFriendEdge_userId (fid : String) (u : UserRecord) :
    (addFriendEdge fid u).userId = u.userId := by
  unfold addFriendEdge
  split <;> rfl

theorem addFriendEdge_friendCode (fid : String) (u : UserRecord) :
    (addFriendEdge fid u).friendCode = u.friendCode := by
  unfold addFriendEdge
  split <;> rfl

theorem mem_addFriendEdge (fid : String) (u : UserRecord) :
    fid ∈ (addFriendEdge fid u).friends := by
  unfold addFriendEdge
  split
  · assumption
  · simp

theorem mem_addFriendEdge_of_mem {x : String} {u : UserRecord} (fid : String)
    (h : x ∈ u.friends) : x ∈ (addFriendEdge fid u).friends := by
  unfold addFriendEdge
  split
  · exact h
  · exact List.mem_append_left _ h

theorem addFriendEdge_eq_self {fid : String} {u : UserRecord}
    (h : fid ∈ u.friends) : addFriendEdge fid u = u := by
  unfold addFriendEdge
  rw [if_pos h]

/-- `friends:add` is a no-op (bar the success response) when the queried
records already hold both edges. -/
theorem friendsAdd_fixed (s2 : ServerState) (actorId codeRaw : String)
    (u v : UserRecord)
    (hu : getUserById s2.users actorId = some u)
    (hv : getUserByCode s2.users (jsTrim codeRaw) = some v)
    (hneq : v.userId ≠ u.userId)
    (hedge1 : v.userId ∈ u.friends)
    (hedge2 : u.userId ∈ v.friends) :
    friendsAdd s2 actorId codeRaw = (.ok (), s2) := by
  unfold friendsAdd
  dsimp only
  rw [hu, hv]
  dsimp only
  rw [if_neg hneq]
  unfold friendsAddUsers
  rw [updateFirst_eq_self hu (addFriendEdge_eq_self hedge1)]
  rw [updateFirst_eq_self hv (addFriendEdge_eq_self hedge2)]

/-- C8: `friends:add` fails when the friend code has no owner, fails when
the code's owner is the actor; otherwise it succeeds, both directed
edges are present afterwards (the relation becomes symmetric), and
repeating the call returns success and leaves the user directory — both
friend sets included — unchanged. -/
theorem c8_friend_add (s : ServerState) (actorId codeRaw : String) :
    (getUserByCode s.users (jsTrim codeRaw) = none →
      friendsAdd s actorId codeRaw = (.error "Friend code not found", s)) ∧
    (∀ actor friendRec,
      getUserById s.users actorId = some actor →
      getUserByCode s.users (jsTrim codeRaw) = some friendRec →
      friendRec.userId = actor.userId →
      friendsAdd s actorId codeRaw = (.error "Cannot add yourself", s)) ∧
    (∀ actor friendRec,
      getUserById s.users actorId = some actor →
      getUserByCode s.users (jsTrim codeRaw) = some friendRec →
      friendRec.userId ≠ actor.userId →
      (friendsAdd s actorId codeRaw).1 = .ok () ∧
      (∃ u, getUserById (friendsAdd s actorId codeRaw).2.users actorId = some u ∧
        friendRec.userId ∈ u.friends) ∧
      (∃ v, getUserByCode (friendsAdd s actorId codeRaw).2.users (jsTrim codeRaw) =
          some v ∧ actor.userId ∈ v.friends) ∧
      friendsAdd (friendsAdd s actorId codeRaw).2 actorId codeRaw =
        (.ok (), (friendsAdd s actorId codeRaw).2)) := by
  refine ⟨?_, ?_, ?_⟩
  · intro hcode
    unfold friendsAdd
    dsimp only
    rw [hcode]
    rcases h1 : getUserById s.users actorId with _ | actor <;> rfl
  · intro actor friendRec ha hf heqid
    unfold friendsAdd
    dsimp only
    rw [ha, hf]
    dsimp only
    rw [if_pos heqid]
  · intro actor friendRec ha hf hne
    have heq : friendsAdd s actorId codeRaw =
        (.ok (), { s with users := friendsAddUsers s actorId (jsTrim codeRaw) actor friendRec }) := by
      unfold friendsAdd
      dsimp only
      rw [ha, hf]
      dsimp only
      rw [if_neg hne]
    rw [heq]
    have hpaA : ∀ y : UserRecord,
        ((addFriendEdge friendRec.userId y).userId == actorId) =
          (y.userId == actorId) := fun y => by rw [addFriendEdge_userId]
    have hpaC : ∀ y : UserRecord,
        ((addFriendEdge actor.userId y).userId == actorId) =
          (y.userId == actorId) := fun y => by rw [addFriendEdge_userId]
    have hpcA : ∀ y : UserRecord,
        (jsToUpper (addFriendEdge friendRec.userId y).friendCode ==
          jsToUpper (jsTrim codeRaw)) =
          (jsToUpper y.friendCode == jsToUpper (jsTrim codeRaw)) :=
      fun y => by rw [addFriendEdge_friendCode]
    have hpcC : ∀ y : UserRecord,
        (jsToUpper (addFriendEdge actor.userId y).friendCode ==
          jsToUpper (jsTrim codeRaw)) =
          (jsToUpper y.friendCode == jsToUpper (jsTrim codeRaw)) :=
      fun y => by rw [addFriendEdge_friendCode]
    have h1 : (updateFirst (fun u => u.userId == actorId)
        (addFriendEdge friendRec.userId) s.users).find? (fun u => u.userId == actorId) =
        some (addFriendEdge friendRec.userId actor) :=
      find?_updateFirst_self hpaA ha
    rcases @find?_updateFirst_other UserRecord
        (fun u => jsToUpper u.friendCode == jsToUpper (jsTrim codeRaw))
        (fun u => u.userId == actorId)
        (addFriendEdge actor.userId) hpaC _ _ h1 with h2 | h2 <;>
    rcases @find?_updateFirst_other UserRecord
        (fun u => u.userId == actorId)
        (fun u => jsToUpper u.friendCode == jsToUpper (jsTrim codeRaw))
        (addFriendEdge friendRec.userId) hpcA _ _ hf with h3 | h3 <;>
    first
    | (refine ⟨rfl, ⟨_, h2, mem_addFriendEdge _ _⟩,
        ⟨_, find?_updateFirst_self hpcC h3, mem_addFriendEdge _ _⟩,
        friendsAdd_fixed _ actorId codeRaw _ _ h2
          (find?_updateFirst_self hpcC h3) ?_ ?_ ?_⟩ <;>
        simp only [addFriendEdge_userId] <;>
        first
        | exact hne
        | exact mem_addFriendEdge _ _)
    | (refine ⟨rfl, ⟨_, h2, mem_addFriendEdge_of_mem _ (mem_addFriendEdge _ _)⟩,
        ⟨_, find?_updateFirst_self hpcC h3, mem_addFriendEdge _ _⟩,
        friendsAdd_fixed _ actorId codeRaw _ _ h2
          (find?_updateFirst_self hpcC h3) ?_ ?_ ?_⟩ <;>
        simp only [addFriendEdge_userId] <;>
        first
        | exact hne
        | exact mem_addFriendEdge _ _
        | exact mem_addFriendEdge_of_mem _ (mem_addFriendEdge _ _))

/-- Witness for C8: the theorem applied to two concrete users. -/
theorem c8_witness :
    getUserById c8State.users "a" =
      some { userId := "a", displayName := "A", friendCode := "AAAA",
             friends := [], avatarDataUrl := none } ∧
    getUserByCode c8State.users (jsTrim "BBBB") =
      some { userId := "b", displayName := "B", friendCode := "BBBB",
             friends := [], avatarDataUrl := none } ∧
    ((friendsAdd c8State "a" "BBBB").1 = .ok () ∧
      (∃ u, getUserById (friendsAdd c8State "a" "BBBB").2.users "a" = some u ∧
        "b" ∈ u.friends) ∧
      (∃ v, getUserByCode (friendsAdd c8State "a" "BBBB").2.users (jsTrim "BBBB") =
          some v ∧ "a" ∈ v.friends) ∧
      friendsAdd (friendsAdd c8State "a" "BBBB").2 "a" "BBBB" =
        (.ok (), (friendsAdd c8State "a" "BBBB").2)) :=
  ⟨by decide, by decide,
   (c8_friend_add c8State "a" "BBBB").2.2
     { userId := "a", displayName := "A", friendCode := "AAAA", friends := [],
       avatarDataUrl := none }
     { userId := "b", displayName := "B", friendCode := "BBBB", friends := [],
       avatarDataUrl := none }
     (by decide) (by decide) (by decide)⟩

/-- Witness for C10: the theorem applied to a concrete pending invite. -/
theorem c10_witness :
    invitesGet c10State.invites (jsTrim "I1") = some c10Invite ∧
    inviteRespond c10State "x" "I1" true =
      (.error "Invite does not belong to user", c10State) ∧
    invitesGet (inviteRespond c10State "b" "I1" false).2.invites (jsTrim "I1") = none ∧
    (inviteRespond (inviteRespond c10State "b" "I1" false).2 "y" "I1" true).1 =
      .error "Invite not found" ∧
    (inviteRespond c10State "b" "I1" false).1 = .ok .declined := by
  have h := c10_invite_wrong_target c10State "x" "y" "I1" true false true c10Invite
    (by decide) (by decide)
  exact ⟨by decide, h.1, h.2.1, h.2.2.1, h.2.2.2 rfl⟩

end Netplay
